import Mathlib

/-!
Verification development for the agroflow backend credit ledger.

The data model and the route handlers below are shallow embeddings of the
JavaScript source: customer, sale, payment and product documents become Lean
structures, the mongoose collections become lists inside a DB record, money
amounts become rationals, and each route handler becomes a function from the
DB (plus its request input) to the resulting DB together with its outcome.
A mongoose session is modelled by threading the buffered state: a route that
aborts its transaction returns the original DB, a route that commits returns
the buffered state.

Modelling notes, applied uniformly:
- save validation is modelled from the schemas: the minimum bounds, the
  required fields and the enums that the routes can actually violate, plus
  the pre save hook of the Customer schema.
- the paid to date amount of a sale is one field, paidAmount. The Sale
  schema stores it at creditDetails.paidAmount with default 0; the payments
  and razorpay routers address it as sale.paidAmount. The spec treats these
  as the one obligation shape, and the embedding follows that reading.
- the currentCredit field written by the sale creation route is kept as its
  own customer field, exactly as that route addresses it; the Customer
  schema declares creditBalance only.
- notification calls are console logging stubs in the source and never
  mutate ledger state, so they are omitted.
- dates are rationals measured in days; ids are naturals.
-/

namespace AgroFlow

/-- Lifecycle status of a sale document, the status enum of the Sale schema. -/
inductive SaleStatus
  | pending
  | completed
  | cancelled
  deriving DecidableEq

/-- Payment type of a sale, the paymentType enum of the Sale schema. -/
inductive PaymentType
  | cash
  | credit
  | online
  deriving DecidableEq

/-- Account status of a customer, the status enum of the Customer schema. -/
inductive CustomerStatus
  | active
  | inactive
  | blocked
  deriving DecidableEq

/-- Payment methods. The Payment schema enum lists cash, bank transfer, credit
card, check and razorpay; unknown stands for any other string a caller sends. -/
inductive PayMethod
  | cash
  | bankTransfer
  | creditCard
  | check
  | razorpay
  | unknown
  deriving DecidableEq

/-- Status enum of an embedded payment history entry of the Customer schema. -/
inductive HistoryStatus
  | pending
  | completed
  | failed
  deriving DecidableEq

/-- Typed counterparts of the error messages thrown by the route handlers. -/
inductive RouteError
  | missingFields
  | customerNotFound
  | creditLimitExceeded
  | productNotFound
  | insufficientStock
  | validationFailed
  deriving DecidableEq

/-- One embedded paymentHistory entry of a customer. The date and notes fields
carry no logic and are omitted; methodOk records whether the entry carries a
method that is one of the enum values of the embedded schema, a required field. -/
structure PaymentHistoryEntry where
  amount : ℚ
  methodOk : Bool
  status : HistoryStatus
  saleId : Option Nat
  deriving DecidableEq

/-- A customer document. currentCredit mirrors the field written by the sale
creation route; the Customer schema itself declares creditBalance only, so the
two are kept distinct, exactly as the routes address them. -/
structure Customer where
  id : Nat
  creditLimit : ℚ
  creditBalance : ℚ
  currentCredit : ℚ
  status : CustomerStatus
  paymentHistory : List PaymentHistoryEntry
  deriving DecidableEq

/-- One line item of a sale; only the referenced product and the quantity take
part in any logic. -/
structure SaleItem where
  product : Nat
  quantity : ℚ
  deriving DecidableEq

/-- A sale document, the Obligation of the spec. paidAmount is the paid to
date amount (creditDetails.paidAmount in the schema, default 0); payments is
the backlink list kept by the payments and razorpay routers; dueDate is
creditDetails.dueDate in days. -/
structure Sale where
  id : Nat
  customer : Nat
  items : List SaleItem
  totalAmount : ℚ
  paidAmount : ℚ
  payments : List Nat
  paymentType : PaymentType
  status : SaleStatus
  createdAt : Nat
  dueDate : Option ℚ
  deriving DecidableEq

/-- A payment document of the Payment schema. sale and customer are required
by the schema, which is why they stay optional here: a save with either absent
fails validation. -/
structure Payment where
  id : Nat
  sale : Option Nat
  customer : Option Nat
  amount : ℚ
  method : Option PayMethod
  deriving DecidableEq

/-- A product document; only the stock quantity takes part in any logic. -/
structure Product where
  id : Nat
  quantity : ℚ
  deriving DecidableEq

/-- The persistent state: one list per mongoose collection. -/
structure DB where
  customers : List Customer
  sales : List Sale
  payments : List Payment
  products : List Product
  deriving DecidableEq

def findCustomer (db : DB) (cid : Nat) : Option Customer :=
  db.customers.find? (fun c => c.id == cid)

def saveCustomer (db : DB) (c : Customer) : DB :=
  { db with customers := db.customers.map (fun x => if x.id = c.id then c else x) }

def findSale (db : DB) (sid : Nat) : Option Sale :=
  db.sales.find? (fun s => s.id == sid)

def saveSale (db : DB) (s : Sale) : DB :=
  { db with sales := db.sales.map (fun x => if x.id = s.id then s else x) }

def addSale (db : DB) (s : Sale) : DB :=
  { db with sales := db.sales ++ [s] }

def addPayment (db : DB) (p : Payment) : DB :=
  { db with payments := db.payments ++ [p] }

def findProduct (db : DB) (pid : Nat) : Option Product :=
  db.products.find? (fun p => p.id == pid)

def saveProduct (db : DB) (p : Product) : DB :=
  { db with products := db.products.map (fun x => if x.id = p.id then p else x) }

/-- Validation run by customer.save: the schema minimums on creditBalance and
creditLimit, the required method enum and the amount minimum of every embedded
history entry, and the pre save hook that rejects creditBalance above
creditLimit. -/
def customerSaveOk (c : Customer) : Bool :=
  decide (0 ≤ c.creditBalance) && decide (0 ≤ c.creditLimit) &&
    decide (c.creditBalance ≤ c.creditLimit) &&
    c.paymentHistory.all (fun e => decide (0 ≤ e.amount) && e.methodOk)

/-- Validation run by sale.save: the schema minimums on totalAmount and on the
paid to date amount. -/
def saleSaveOk (s : Sale) : Bool :=
  decide (0 ≤ s.totalAmount) && decide (0 ≤ s.paidAmount)

/-- Membership of a method value in the Payment schema enum. -/
def methodAllowed : Option PayMethod → Bool
  | some PayMethod.unknown => false
  | some _ => true
  | none => false

/-- Validation run by payment.save: sale and customer are required, amount has
minimum 0, method is required and must be in the enum. -/
def paymentSaveOk (p : Payment) : Bool :=
  p.sale.isSome && p.customer.isSome && decide (0 ≤ p.amount) && methodAllowed p.method

/-- customerSchema.methods.canMakeCreditPurchase: active status and the new
balance within the limit. -/
def canMakeCreditPurchase (c : Customer) (amount : ℚ) : Bool :=
  c.status == CustomerStatus.active && decide (c.creditBalance + amount ≤ c.creditLimit)

/-- saleSchema virtual remainingBalance: zero for a non credit sale, otherwise
totalAmount minus the paid to date amount. -/
def Sale.remainingBalance (s : Sale) : ℚ :=
  if s.paymentType = PaymentType.credit then s.totalAmount - s.paidAmount else 0

/-- saleSchema.methods.processPayment: rejects a completed sale, a non positive
amount and an amount above the remaining balance, then increments the paid to
date amount, flips the status to completed when the sale is fully paid, and
saves. -/
def Sale.processPayment (s : Sale) (amount : ℚ) : Option Sale :=
  if s.status = SaleStatus.completed then none
  else if amount ≤ 0 then none
  else if s.remainingBalance < amount then none
  else
    let paid1 := s.paidAmount + amount
    let s1 := { s with
      paidAmount := paid1,
      status := if s.totalAmount ≤ paid1 then SaleStatus.completed else s.status }
    if saleSaveOk s1 then some s1 else none

/-- Ascending creation time order used by the bulk payment query. -/
def saleOrder (a b : Sale) : Prop := a.createdAt ≤ b.createdAt

instance : DecidableRel saleOrder :=
  fun a b => inferInstanceAs (Decidable (a.createdAt ≤ b.createdAt))

instance : IsTotal Sale saleOrder := ⟨fun a b => Nat.le_total a.createdAt b.createdAt⟩

instance : IsTrans Sale saleOrder := ⟨fun _ _ _ h h2 => Nat.le_trans h h2⟩

def sortByCreatedAt (l : List Sale) : List Sale := List.insertionSort saleOrder l

/-- The query of the bulk payment route: pending credit sales of one customer,
sorted ascending by creation time. -/
def pendingCreditSalesFor (db : DB) (cid : Nat) : List Sale :=
  sortByCreatedAt (db.sales.filter (fun s =>
    s.customer == cid && s.status == SaleStatus.pending &&
      s.paymentType == PaymentType.credit))

/-- Request body of one entry of the bulk payments route. A none customerId or
method and a zero amount model the falsy values rejected by the field check. -/
structure BulkPaymentData where
  customerId : Option Nat
  amount : ℚ
  hasDate : Bool
  method : Option PayMethod
  deriving DecidableEq

/-- Outcome of the allocation loop of the bulk payments route. -/
structure LoopResult where
  db : DB
  nextPid : Nat
  remaining : ℚ
  allocs : List (Nat × ℚ)
  ok : Bool
  deriving DecidableEq

/-- The allocation loop of the bulk payments route: walk the sorted pending
sales, stop once the remaining amount is not positive, apply the minimum of
the remaining amount and the sale balance, save one payment record, push the
backlink, raise the paid to date amount, flip the status to completed when
fully paid, save the sale and continue with the rest. A failing save raises,
which the per payment catch receives; the writes already buffered stay in the
session, which the model records by returning the state reached so far. -/
def allocLoop (cid : Nat) (method : Option PayMethod) :
    DB → Nat → ℚ → List Sale → LoopResult
  | db, pid, r, [] => ⟨db, pid, r, [], true⟩
  | db, pid, r, s :: rest =>
    if r ≤ 0 then ⟨db, pid, r, [], true⟩
    else
      let saleBalance := s.totalAmount - s.paidAmount
      let p := min r saleBalance
      let pay : Payment := ⟨pid, some s.id, some cid, p, method⟩
      if paymentSaveOk pay then
        let db1 := addPayment db pay
        let paid1 := s.paidAmount + p
        let s1 := { s with
          payments := s.payments ++ [pid],
          paidAmount := paid1,
          status := if s.totalAmount ≤ paid1 then SaleStatus.completed else s.status }
        if saleSaveOk s1 then
          let res := allocLoop cid method (saveSale db1 s1) (pid + 1) (r - p) rest
          ⟨res.db, res.nextPid, res.remaining, (s.id, p) :: res.allocs, res.ok⟩
        else ⟨db1, pid, r, [(s.id, p)], false⟩
      else ⟨db, pid, r, [], false⟩

/-- The payment record built by one iteration of the allocation loop. -/
def allocPay (cid : Nat) (m : Option PayMethod) (pid : Nat) (r : ℚ) (s : Sale) : Payment :=
  ⟨pid, some s.id, some cid, min r (s.totalAmount - s.paidAmount), m⟩

/-- The sale as updated by one iteration of the allocation loop: backlink
pushed, paid to date amount raised by the applied allocation, status flipped
to completed when fully paid. -/
def allocStep (pid : Nat) (r : ℚ) (s : Sale) : Sale :=
  { s with
    payments := s.payments ++ [pid],
    paidAmount := s.paidAmount + min r (s.totalAmount - s.paidAmount),
    status := if s.totalAmount ≤ s.paidAmount + min r (s.totalAmount - s.paidAmount)
      then SaleStatus.completed else s.status }

/-- Outcome of processing one entry of the bulk payments route. -/
structure BulkResult where
  db : DB
  nextPid : Nat
  allocs : List (Nat × ℚ)
  ok : Bool
  deriving DecidableEq

/-- One iteration of the bulk payments route: validate the request fields, look
up the customer, fetch the pending credit sales oldest first, run the
allocation loop, then decrement the customer creditBalance by the full request
amount and save the customer. Every failure is caught per payment inside the
shared session; the writes buffered before the failure remain and are
committed with the rest of the batch, which the model records by carrying the
partially mutated state in the failure outcomes. -/
def processBulkPayment (db : DB) (pid : Nat) (pd : BulkPaymentData) : BulkResult :=
  match pd.customerId with
  | none => ⟨db, pid, [], false⟩
  | some cid =>
    if pd.amount = 0 ∨ pd.hasDate = false ∨ pd.method = none then ⟨db, pid, [], false⟩
    else
      match findCustomer db cid with
      | none => ⟨db, pid, [], false⟩
      | some customer =>
        let pendingSales := pendingCreditSalesFor db cid
        if pendingSales = [] then ⟨db, pid, [], false⟩
        else
          let res := allocLoop cid pd.method db pid pd.amount pendingSales
          if res.ok then
            let customer1 :=
              { customer with creditBalance := customer.creditBalance - pd.amount }
            if customerSaveOk customer1 then
              ⟨saveCustomer res.db customer1, res.nextPid, res.allocs, true⟩
            else ⟨res.db, res.nextPid, res.allocs, false⟩
          else ⟨res.db, res.nextPid, res.allocs, false⟩

/-- The per obligation split produced by one entry of the bulk payments route:
the saved payment records, as sale id and applied amount pairs. -/
def bulkAllocations (db : DB) (pid : Nat) (pd : BulkPaymentData) : List (Nat × ℚ) :=
  (processBulkPayment db pid pd).allocs

/-- POST payments bulk: fold the batch through one shared session and commit
at the end, whether or not individual payments failed. -/
def bulkRoute (db : DB) (pid : Nat) : List BulkPaymentData → DB × Nat × List Bool
  | [] => (db, pid, [])
  | pd :: rest =>
    let res := processBulkPayment db pid pd
    let next := bulkRoute res.db res.nextPid rest
    (next.1, next.2.1, res.ok :: next.2.2)

/-- POST customers id payments: look up the customer, reject a non positive
amount or an amount above the creditBalance, decrement the balance, append a
completed history entry, optionally complete the referenced sale when the
summed completed history for it reaches its total, save inside one
transaction and commit; any failure aborts the transaction, so the original
state is returned. -/
def customerPaymentRoute (db : DB) (cid : Nat) (amount : ℚ) (methodOk : Bool)
    (saleId : Option Nat) : DB × Bool :=
  match findCustomer db cid with
  | none => (db, false)
  | some customer =>
    if amount ≤ 0 then (db, false)
    else if customer.creditBalance < amount then (db, false)
    else
      let entry : PaymentHistoryEntry := ⟨amount, methodOk, HistoryStatus.completed, saleId⟩
      let customer1 := { customer with
        creditBalance := customer.creditBalance - amount,
        paymentHistory := customer.paymentHistory ++ [entry] }
      match saleId with
      | none =>
        if customerSaveOk customer1 then (saveCustomer db customer1, true) else (db, false)
      | some sid =>
        match findSale db sid with
        | none =>
          if customerSaveOk customer1 then (saveCustomer db customer1, true) else (db, false)
        | some sale =>
          let totalPaid :=
            ((customer1.paymentHistory.filter (fun p =>
              p.saleId == some sid && p.status == HistoryStatus.completed)).map
                PaymentHistoryEntry.amount).sum + amount
          if sale.totalAmount ≤ totalPaid then
            let sale1 := { sale with status := SaleStatus.completed }
            if saleSaveOk sale1 then
              if customerSaveOk customer1 then
                (saveCustomer (saveSale db sale1) customer1, true)
              else (db, false)
            else (db, false)
          else
            if customerSaveOk customer1 then (saveCustomer db customer1, true) else (db, false)

/-- PUT customers id: reject a new limit below the current balance, then the
customer code uniqueness check (abstracted to the codeAvailable flag), then
set the new limit and save. -/
def updateCustomerRoute (db : DB) (cid : Nat) (newLimit : ℚ) (codeAvailable : Bool) :
    DB × Bool :=
  match findCustomer db cid with
  | none => (db, false)
  | some c =>
    if newLimit < c.creditBalance then (db, false)
    else if codeAvailable = false then (db, false)
    else
      let c1 := { c with creditLimit := newLimit }
      if customerSaveOk c1 then (saveCustomer db c1, true) else (db, false)

/-- PATCH sales id status: look up the sale, reject an unchanged status; when
marking a credit sale completed, apply findByIdAndUpdate with an increment of
minus totalAmount to the customer creditBalance. An update query runs no
schema validators and no pre save hooks, so the decrement is unconditional.
The sale status is then saved in the same session and the session commits; a
failure aborts the whole session. A missing populated customer raises before
the update. -/
def updateSaleStatusRoute (db : DB) (saleId : Nat) (newStatus : SaleStatus) : DB × Bool :=
  match findSale db saleId with
  | none => (db, false)
  | some sale =>
    if sale.status = newStatus then (db, false)
    else if newStatus = SaleStatus.completed ∧ sale.paymentType = PaymentType.credit then
      match findCustomer db sale.customer with
      | none => (db, false)
      | some c =>
        let db1 := saveCustomer db { c with creditBalance := c.creditBalance - sale.totalAmount }
        let sale1 := { sale with status := newStatus }
        if saleSaveOk sale1 then (saveSale db1 sale1, true) else (db, false)
    else
      let sale1 := { sale with status := newStatus }
      if saleSaveOk sale1 then (saveSale db sale1, true) else (db, false)

/-- Request body of the sale creation route; none models an absent field and a
zero totalAmount models the falsy value rejected by the field check. -/
structure NewSaleInput where
  customerId : Option Nat
  items : Option (List SaleItem)
  paymentType : Option PaymentType
  totalAmount : ℚ
  dueDate : Option ℚ
  deriving DecidableEq

/-- The stock check and decrement loop of the sale creation route: a missing
product or insufficient stock raises; decrements already applied stay. -/
def stockLoop : DB → List SaleItem → DB × Option RouteError
  | db, [] => (db, none)
  | db, it :: rest =>
    match findProduct db it.product with
    | none => (db, some RouteError.productNotFound)
    | some p =>
      if p.quantity < it.quantity then (db, some RouteError.insufficientStock)
      else stockLoop (saveProduct db { p with quantity := p.quantity - it.quantity }) rest

/-- The catch block rollback of the sale creation route: for every item whose
product exists, add the item quantity back. -/
def rollbackItems : DB → List SaleItem → DB
  | db, [] => db
  | db, it :: rest =>
    match findProduct db it.product with
    | none => rollbackItems db rest
    | some p => rollbackItems (saveProduct db { p with quantity := p.quantity + it.quantity }) rest

/-- POST sales: validate the required fields; for a credit sale look up the
customer and reject when canMakeCreditPurchase fails; check and decrement the
stock; create the sale (pending for credit, completed otherwise); for a credit
sale raise currentCredit and push a pending history entry without a method
(the embedded schema requires one, so that save fails validation) and save the
customer. The catch block rolls the stock back for every error except the
customer not found and credit limit exceeded messages; the sale itself is
never rolled back because it was created outside any transaction. -/
def createSaleRoute (db : DB) (inp : NewSaleInput) (newSaleId : Nat) (createdAt : Nat) :
    DB × Except RouteError Nat :=
  match inp.customerId, inp.items, inp.paymentType with
  | some cid, some items, some ptype =>
    if inp.totalAmount = 0 then (rollbackItems db items, Except.error RouteError.missingFields)
    else
      let creditCheck : Option RouteError :=
        if ptype = PaymentType.credit then
          match findCustomer db cid with
          | none => some RouteError.customerNotFound
          | some c =>
            if canMakeCreditPurchase c inp.totalAmount then none
            else some RouteError.creditLimitExceeded
        else none
      match creditCheck with
      | some e => (db, Except.error e)
      | none =>
        match stockLoop db items with
        | (db1, some e) => (rollbackItems db1 items, Except.error e)
        | (db1, none) =>
          let sale : Sale := {
            id := newSaleId, customer := cid, items := items,
            totalAmount := inp.totalAmount, paidAmount := 0, payments := [],
            paymentType := ptype,
            status := if ptype = PaymentType.credit then SaleStatus.pending
                      else SaleStatus.completed,
            createdAt := createdAt,
            dueDate := if ptype = PaymentType.credit then inp.dueDate else none }
          let db2 := addSale db1 sale
          if ptype = PaymentType.credit then
            match findCustomer db2 cid with
            | none => (rollbackItems db2 items, Except.error RouteError.customerNotFound)
            | some c =>
              let c1 := { c with
                currentCredit := c.currentCredit + inp.totalAmount,
                paymentHistory := c.paymentHistory ++
                  [⟨inp.totalAmount, false, HistoryStatus.pending, some newSaleId⟩] }
              if customerSaveOk c1 then (saveCustomer db2 c1, Except.ok newSaleId)
              else (rollbackItems db2 items, Except.error RouteError.validationFailed)
          else (db2, Except.ok newSaleId)
  | _, _, _ =>
    match inp.items with
    | some items => (rollbackItems db items, Except.error RouteError.missingFields)
    | none => (db, Except.error RouteError.missingFields)

/-- Request body of the razorpay verify payment route; signatureValid is the
outcome of the external signature verification. -/
structure RazorpayVerifyInput where
  signatureValid : Bool
  saleId : Option Nat
  customerId : Option Nat
  amount : ℚ
  deriving DecidableEq

/-- The sale update block of the razorpay verify payment route (the body of
its if saleId guard): when a sale id was sent and resolves, push the
backlink, add the amount to the paid to date amount uncapped, complete the
sale when fully paid and save it; a failing save aborts with the state so
far, since there is no transaction. -/
def razorpaySaleStep (db1 : DB) (osid : Option Nat) (amount : ℚ) (pid : Nat) : DB × Bool :=
  match osid with
  | none => (db1, true)
  | some sid =>
    match findSale db1 sid with
    | none => (db1, true)
    | some sale =>
      if saleSaveOk { sale with
          payments := sale.payments ++ [pid],
          paidAmount := sale.paidAmount + amount,
          status := if sale.totalAmount ≤ sale.paidAmount + amount
            then SaleStatus.completed else sale.status } then
        (saveSale db1 { sale with
          payments := sale.payments ++ [pid],
          paidAmount := sale.paidAmount + amount,
          status := if sale.totalAmount ≤ sale.paidAmount + amount
            then SaleStatus.completed else sale.status }, true)
      else (db1, false)

/-- The customer update block of the razorpay verify payment route (the body
of its if customerId guard): when a customer id was sent and resolves, clamp
the balance at zero with max and save. Right after the save the handler calls
sendPaymentConfirmation with the sale variable, which is declared const
inside the if saleId block above and is out of scope here: the call raises
ReferenceError on every run that reaches it, the route catch answers 500, and
the saved balance persists since no transaction wraps the route. The block
therefore never reports success once a customer was found: the pair carries
the updated state with a false flag. A failing save raises before the write,
leaving the state unchanged with the same 500 answer. -/
def razorpayCustomerStep (db2 : DB) (ocid : Option Nat) (amount : ℚ) : DB × Bool :=
  match ocid with
  | none => (db2, true)
  | some cid =>
    match findCustomer db2 cid with
    | none => (db2, true)
    | some c =>
      if customerSaveOk { c with creditBalance := max 0 (c.creditBalance - amount) } then
        (saveCustomer db2 { c with creditBalance := max 0 (c.creditBalance - amount) }, false)
      else (db2, false)

/-- POST razorpay verify payment: reject an invalid signature; save a payment
record (sale and customer are required by the Payment schema, so a missing
saleId fails validation here and nothing is written); then the sale update
block and the customer update block, whose out of scope sale reference makes
every run that updated a found customer answer 500. There is no transaction:
writes made before a later failure persist. -/
def razorpayVerifyRoute (db : DB) (inp : RazorpayVerifyInput) (pid : Nat) : DB × Bool :=
  if inp.signatureValid = false then (db, false)
  else if paymentSaveOk ⟨pid, inp.saleId, inp.customerId, inp.amount,
      some PayMethod.razorpay⟩ then
    if (razorpaySaleStep (addPayment db ⟨pid, inp.saleId, inp.customerId, inp.amount,
        some PayMethod.razorpay⟩) inp.saleId inp.amount pid).2 = false then
      ((razorpaySaleStep (addPayment db ⟨pid, inp.saleId, inp.customerId, inp.amount,
        some PayMethod.razorpay⟩) inp.saleId inp.amount pid).1, false)
    else
      razorpayCustomerStep (razorpaySaleStep (addPayment db ⟨pid, inp.saleId, inp.customerId,
        inp.amount, some PayMethod.razorpay⟩) inp.saleId inp.amount pid).1
        inp.customerId inp.amount
  else (db, false)

/-- Truncation toward zero of a day difference, the integer returned by the
differenceInDays helper of date-fns: the number of full days between the two
instants, signed. -/
def truncDays (q : ℚ) : ℤ := if 0 ≤ q then ⌊q⌋ else -⌊-q⌋

/-- differenceInDays of date-fns on two instants measured in days. -/
def differenceInDays (a b : ℚ) : ℤ := truncDays (a - b)

/-- processUpcomingPayments, per sale: the query keeps pending credit sales
with a due date; a reminder fires exactly when daysUntilDue equals one of the
reminder intervals 7, 3 and 1. The emitted value is daysUntilDue. -/
def upcomingReminderIntent (now : ℚ) (s : Sale) : Option ℤ :=
  match s.dueDate with
  | none => none
  | some d =>
    if s.status = SaleStatus.pending ∧ s.paymentType = PaymentType.credit then
      let daysUntilDue := differenceInDays d now
      if daysUntilDue = 7 ∨ daysUntilDue = 3 ∨ daysUntilDue = 1 then some daysUntilDue
      else none
    else none

/-- processOverduePayments, per sale: the query keeps pending credit sales
whose due date lies before now; a notice fires exactly when daysOverdue equals
one of the overdue intervals 1, 7 and 30. The emitted value is daysOverdue. -/
def overdueNoticeIntent (now : ℚ) (s : Sale) : Option ℤ :=
  match s.dueDate with
  | none => none
  | some d =>
    if d < now ∧ s.status = SaleStatus.pending ∧ s.paymentType = PaymentType.credit then
      let daysOverdue := differenceInDays now d
      if daysOverdue = 1 ∨ daysOverdue = 7 ∨ daysOverdue = 30 then some daysOverdue
      else none
    else none

/-- The upcoming payment sweep over the whole ledger. -/
def processUpcomingPayments (now : ℚ) (db : DB) : List (Nat × ℤ) :=
  db.sales.filterMap (fun s => (upcomingReminderIntent now s).map (fun d => (s.id, d)))

/-- The overdue payment sweep over the whole ledger. -/
def processOverduePayments (now : ℚ) (db : DB) : List (Nat × ℤ) :=
  db.sales.filterMap (fun s => (overdueNoticeIntent now s).map (fun d => (s.id, d)))

/-- The credit warning thresholds of the reminder job, in the order the loop
walks them. -/
def CREDIT_WARNING_THRESHOLDS : List ℚ := [70, 85, 95]

/-- The threshold walk of processCreditLimitWarnings: fire at the first
threshold the usage meets and break. -/
def firstThresholdMet (pct : ℚ) : List ℚ → Option ℚ
  | [] => none
  | t :: ts => if t ≤ pct then some t else firstThresholdMet pct ts

/-- processCreditLimitWarnings, per customer: the query keeps active customers
with a positive balance; the loop fires one warning at the first threshold met
and breaks. The returned value is the threshold at which the loop broke. -/
def creditWarningFired (c : Customer) : Option ℚ :=
  if 0 < c.creditBalance ∧ c.status = CustomerStatus.active then
    firstThresholdMet (c.creditBalance / c.creditLimit * 100) CREDIT_WARNING_THRESHOLDS
  else none

/-- Modelled from the spec: the oldest first waterfall. Walk the ordered list;
for each Obligation apply the minimum of the remaining amount and its
remaining balance as its allocation; stop when the remaining amount reaches
zero or the list is exhausted. -/
def specWaterfall : ℚ → List Sale → List (Nat × ℚ)
  | _, [] => []
  | r, s :: rest =>
    if r = 0 then []
    else
      let p := min r (s.totalAmount - s.paidAmount)
      (s.id, p) :: specWaterfall (r - p) rest

/-- Modelled from the spec: the highest of the warning thresholds that the
usage percentage currently meets. -/
def specHighestThresholdMet (pct : ℚ) : Option ℚ :=
  firstThresholdMet pct [95, 85, 70]

/-- Total outstanding balance of a list of sales: the sum of totalAmount minus
the paid to date amount. -/
def outstandingTotal (l : List Sale) : ℚ :=
  (l.map (fun s => s.totalAmount - s.paidAmount)).sum

/-- The credit account invariant of the spec: every customer holds
0 ≤ creditBalance ≤ creditLimit. -/
def creditInvariant (db : DB) : Prop :=
  ∀ c ∈ db.customers, 0 ≤ c.creditBalance ∧ c.creditBalance ≤ c.creditLimit

/-- Ledger for the witness of claim C1, scenario C of the spec: one customer
with two pending credit sales, the older of 200 and the newer of 500. -/
def dbW1 : DB :=
  ⟨[⟨1, 1000, 600, 0, CustomerStatus.active, []⟩],
    [⟨1, 1, [], 200, 0, [], PaymentType.credit, SaleStatus.pending, 1, none⟩,
      ⟨2, 1, [], 500, 0, [], PaymentType.credit, SaleStatus.pending, 2, none⟩], [], []⟩

/-- Bulk payment of 300 for the witness of claim C1. -/
def pdW1 : BulkPaymentData := ⟨some 1, 300, true, some PayMethod.cash⟩

/-- Customer of the ledger of claim C2: balance 500 of limit 1000. -/
def custC2 : Customer := ⟨1, 1000, 500, 0, CustomerStatus.active, []⟩

/-- Sale of the ledger of claim C2: a fully unpaid pending credit sale of 100. -/
def saleC2 : Sale := ⟨1, 1, [], 100, 0, [], PaymentType.credit, SaleStatus.pending, 1, none⟩

/-- Ledger for claim C2. -/
def dbC2 : DB := ⟨[custC2], [saleC2], [], []⟩

/-- Bulk payment of 150 for claim C2, exceeding the outstanding total of 100. -/
def pdC2 : BulkPaymentData := ⟨some 1, 150, true, some PayMethod.cash⟩

/-- Customer of the ledger of claim C3: balance 50 of limit 1000. -/
def custC3 : Customer := ⟨1, 1000, 50, 0, CustomerStatus.active, []⟩

/-- Sale of the ledger of claim C3: a fully unpaid pending credit sale of 100. -/
def saleC3 : Sale := ⟨1, 1, [], 100, 0, [], PaymentType.credit, SaleStatus.pending, 1, none⟩

/-- Ledger for the counterexample of claim C3. -/
def dbC3 : DB := ⟨[custC3], [saleC3], [], []⟩

/-- Bulk payment of 80 for the counterexample of claim C3: the allocation to
the sale succeeds, then the customer save fails because 50 minus 80 violates
the schema minimum. -/
def pdC3 : BulkPaymentData := ⟨some 1, 80, true, some PayMethod.cash⟩

/-- Ledger for the witness of claim C3: one customer with balance 10. -/
def dbW3 : DB := ⟨[⟨1, 1000, 10, 0, CustomerStatus.active, []⟩], [], [], []⟩

/-- Customer of the ledger of claim C4: balance 40 of limit 1000. -/
def custC4 : Customer := ⟨1, 1000, 40, 0, CustomerStatus.active, []⟩

/-- Sale of the ledger of claim C4: a pending credit sale of 100 with 60
already paid. -/
def saleC4 : Sale := ⟨1, 1, [], 100, 60, [], PaymentType.credit, SaleStatus.pending, 1, none⟩

/-- Ledger for the counterexample of claim C4. -/
def dbC4 : DB := ⟨[custC4], [saleC4], [], []⟩

/-- Ledger for the witness of claim C4: one customer with balance 30 of
limit 100. -/
def dbW4 : DB := ⟨[⟨1, 100, 30, 0, CustomerStatus.active, []⟩], [], [], []⟩

/-- Customer of the ledger of claim C5: balance 500 of limit 1000. -/
def custC5 : Customer := ⟨1, 1000, 500, 0, CustomerStatus.active, []⟩

/-- Sale of the ledger of claim C5: a fully unpaid pending credit sale of
100. -/
def saleC5 : Sale := ⟨1, 1, [], 100, 0, [], PaymentType.credit, SaleStatus.pending, 1, none⟩

/-- Ledger for the counterexample of claim C5. -/
def dbC5 : DB := ⟨[custC5], [saleC5], [], []⟩

/-- Sale for the witness of claim C5: a fully unpaid pending credit sale. -/
def saleW5 : Sale := ⟨1, 1, [], 100, 0, [], PaymentType.credit, SaleStatus.pending, 1, none⟩

/-- Expected outcome of processPayment 40 on the witness sale of claim C5. -/
def saleW5r : Sale := ⟨1, 1, [], 100, 40, [], PaymentType.credit, SaleStatus.pending, 1, none⟩

/-- Customer of the ledger of claim C6. -/
def custC6 : Customer := ⟨1, 1000, 500, 0, CustomerStatus.active, []⟩

/-- Sale of the ledger of claim C6: a pending credit sale of 100 with 40
already paid, so the outstanding amount is 60. -/
def saleC6 : Sale := ⟨1, 1, [], 100, 40, [], PaymentType.credit, SaleStatus.pending, 1, none⟩

/-- Ledger for claim C6. -/
def dbC6 : DB := ⟨[custC6], [saleC6], [], []⟩

/-- Sale used by the witness of claim C7: pending credit sale due in seven and
a half days from instant zero. -/
def saleW7 : Sale :=
  ⟨1, 1, [], 100, 0, [], PaymentType.credit, SaleStatus.pending, 0, some (15 / 2)⟩

/-- Customer used by the counterexample of claim C8: 96 of a 100 limit used. -/
def custC8 : Customer := ⟨1, 100, 96, 0, CustomerStatus.active, []⟩

/-- Customer used by the witness of claim C8: 80 of a 100 limit used. -/
def custW8 : Customer := ⟨2, 100, 80, 0, CustomerStatus.active, []⟩

/-- Customer used by the witness of claim C9: inactive, with room under the
limit for any reasonable purchase. -/
def custW9 : Customer := ⟨1, 1000, 0, 0, CustomerStatus.inactive, []⟩

/-- Ledger for the witness of claim C9. -/
def dbW9 : DB := ⟨[custW9], [], [], []⟩

/-- Credit sale request for the witness of claim C9: amount 100 fits under the
limit, so only the inactive status causes the rejection. -/
def inpW9 : NewSaleInput := ⟨some 1, some [], some PaymentType.credit, 100, none⟩

/-- Customer of the ledger of claim C10: balance 100 of limit 1000. -/
def custC10 : Customer := ⟨1, 1000, 100, 0, CustomerStatus.active, []⟩

/-- Ledger for claim C10. -/
def dbC10 : DB := ⟨[custC10], [], [], []⟩

/-- Verified razorpay payment with a customer id but no sale id, for the
counterexample of claim C10. -/
def inpC10 : RazorpayVerifyInput := ⟨true, none, some 1, 30⟩

/-- Verified razorpay payment of 250, above the customer balance of 100, with
both ids present, for the witness of claim C10. -/
def inpW10 : RazorpayVerifyInput := ⟨true, some 9, some 1, 250⟩

/-- Replacing every element that carries a given key leaves the list findable
at that key, returning the replacement. -/
theorem find_replace {α : Type} (key : α → Nat) (i : Nat) (b : α) (hb : key b = i) :
    ∀ l : List α, (l.find? (fun x => key x == i)).isSome = true →
      (l.map (fun x => if key x = key b then b else x)).find? (fun x => key x == i) = some b := by
  intro l
  induction l with
  | nil => intro h; simp at h
  | cons x xs ih =>
    intro h
    by_cases hx : key x = i
    · have hxb : key x = key b := by rw [hx, hb]
      simp [List.find?, hxb, hb]
    · have hxb : ¬ key x = key b := by rw [hb]; exact hx
      have hx2 : (key x == i) = false := by simp [hx]
      simp only [List.find?, hx2, List.map_cons, if_neg hxb] at h ⊢
      exact ih h

/-- Saving a customer whose id matches the lookup returns the saved version. -/
theorem findCustomer_saveCustomer (db : DB) (cid : Nat) (c1 : Customer)
    (h : (findCustomer db cid).isSome = true) (hid : c1.id = cid) :
    findCustomer (saveCustomer db c1) cid = some c1 := by
  have := find_replace Customer.id cid c1 hid db.customers h
  simpa [findCustomer, saveCustomer] using this

/-- Saving a sale whose id matches the lookup returns the saved version. -/
theorem findSale_saveSale (db : DB) (sid : Nat) (s1 : Sale)
    (h : (findSale db sid).isSome = true) (hid : s1.id = sid) :
    findSale (saveSale db s1) sid = some s1 := by
  have := find_replace Sale.id sid s1 hid db.sales h
  simpa [findSale, saveSale] using this

/-- A found customer carries the looked up id. -/
theorem findCustomer_id (db : DB) (cid : Nat) (c : Customer)
    (h : findCustomer db cid = some c) : c.id = cid := by
  have := List.find?_some h
  simpa using this

/-- A found sale carries the looked up id. -/
theorem findSale_id (db : DB) (sid : Nat) (s : Sale)
    (h : findSale db sid = some s) : s.id = sid := by
  have := List.find?_some h
  simpa using this

/-- A sale in the pending credit query result is a sale of the ledger. -/
theorem mem_pendingCreditSalesFor (db : DB) (cid : Nat) (s : Sale)
    (h : s ∈ pendingCreditSalesFor db cid) : s ∈ db.sales := by
  have hperm := List.perm_insertionSort saleOrder (db.sales.filter (fun s =>
    s.customer == cid && s.status == SaleStatus.pending &&
      s.paymentType == PaymentType.credit))
  have hmem := hperm.mem_iff.mp h
  exact (List.mem_filter.mp hmem).1

/-- A truncated day difference of at least one full day forces a positive
real difference. -/
theorem truncDays_ge_one_pos (q : ℚ) (h1 : 1 ≤ truncDays q) : 0 < q := by
  unfold truncDays at h1
  split at h1
  · rename_i hq
    have h2 : (1 : ℚ) ≤ (⌊q⌋ : ℤ) := by exact_mod_cast h1
    have h3 := Int.floor_le q
    linarith
  · rename_i hq
    push_neg at hq
    have h2 : (0 : ℚ) ≤ -q := by linarith
    have h3 : 0 ≤ ⌊-q⌋ := Int.floor_nonneg.mpr h2
    exact absurd h1 (by omega)

/-- Claim C7: for a pending credit sale with a due date, the daily sweep emits
an upcoming reminder exactly when daysUntilDue equals 7, 3 or 1, and an
overdue notice exactly when the sale is exactly 1, 7 or 30 full days past due;
both triggers are equality tests on the day offset, not thresholds, so each
fires only as the clock crosses it. -/
theorem reminder_triggers_exact_match (now : ℚ) (s : Sale) (d : ℚ)
    (hd : s.dueDate = some d) (hp : s.status = SaleStatus.pending)
    (hc : s.paymentType = PaymentType.credit) :
    ((upcomingReminderIntent now s).isSome = true ↔
      (differenceInDays d now = 7 ∨ differenceInDays d now = 3 ∨
        differenceInDays d now = 1)) ∧
    ((overdueNoticeIntent now s).isSome = true ↔
      (differenceInDays now d = 1 ∨ differenceInDays now d = 7 ∨
        differenceInDays now d = 30)) := by
  constructor
  · simp only [upcomingReminderIntent, hd]
    rw [if_pos ⟨hp, hc⟩]
    by_cases hcond : differenceInDays d now = 7 ∨ differenceInDays d now = 3 ∨
        differenceInDays d now = 1
    · simp [hcond]
    · simp [hcond]
  · simp only [overdueNoticeIntent, hd]
    by_cases hlt : d < now
    · rw [if_pos ⟨hlt, hp, hc⟩]
      by_cases hcond : differenceInDays now d = 1 ∨ differenceInDays now d = 7 ∨
          differenceInDays now d = 30
      · simp [hcond]
      · simp [hcond]
    · rw [if_neg (by intro hcon; exact hlt hcon.1)]
      simp only [Option.isSome_none, Bool.false_eq_true, false_iff]
      intro hcond
      have hone : 1 ≤ truncDays (now - d) := by
        rcases hcond with h | h | h <;>
          (rw [show differenceInDays now d = truncDays (now - d) from rfl] at h; omega)
      exact hlt (sub_pos.mp (truncDays_ge_one_pos _ hone))

/-- Witness of claim C7 at a concrete sale and instant. -/
theorem reminder_triggers_exact_match_witness :
    ((upcomingReminderIntent 0 saleW7).isSome = true ↔
      (differenceInDays (15 / 2) 0 = 7 ∨ differenceInDays (15 / 2) 0 = 3 ∨
        differenceInDays (15 / 2) 0 = 1)) ∧
    ((overdueNoticeIntent 0 saleW7).isSome = true ↔
      (differenceInDays 0 (15 / 2) = 1 ∨ differenceInDays 0 (15 / 2) = 7 ∨
        differenceInDays 0 (15 / 2) = 30)) :=
  reminder_triggers_exact_match 0 saleW7 (15 / 2) rfl rfl rfl

/-- Computation rule of the threshold walk on a nonempty list. -/
theorem firstThresholdMet_cons (pct t : ℚ) (ts : List ℚ) :
    firstThresholdMet pct (t :: ts) =
      if t ≤ pct then some t else firstThresholdMet pct ts := rfl

/-- Computation rule of the threshold walk on the empty list. -/
theorem firstThresholdMet_nil (pct : ℚ) : firstThresholdMet pct [] = none := rfl

/-- Claim C8 counterexample: at 96 percent usage the highest threshold met is
95, but the ascending walk of the sweep breaks at the first threshold met, so
the warning fires at threshold 70, not 95. -/
theorem credit_warning_not_highest_cex :
    creditWarningFired custC8 = some 70 ∧
    specHighestThresholdMet (custC8.creditBalance / custC8.creditLimit * 100) = some 95 ∧
    ((70 : ℚ) ≠ 95) := by
  refine ⟨?_, ?_, by norm_num⟩
  · norm_num [creditWarningFired, custC8, CREDIT_WARNING_THRESHOLDS,
      firstThresholdMet_cons, firstThresholdMet_nil]
  · norm_num [specHighestThresholdMet, custC8,
      firstThresholdMet_cons, firstThresholdMet_nil]

/-- Claim C8 amended: per sweep at most one credit limit warning is emitted
per account, and it fires exactly when the usage percentage meets the lowest
threshold 70; the ascending walk with its break always stops at the first
threshold met, never at the highest. The positive limit hypothesis keeps the
rational division faithful to the source semantics. -/
theorem credit_warning_at_most_one_lowest (c : Customer) (_hl : 0 < c.creditLimit) :
    creditWarningFired c =
      if 0 < c.creditBalance ∧ c.status = CustomerStatus.active ∧
          70 ≤ c.creditBalance / c.creditLimit * 100 then some 70 else none := by
  unfold creditWarningFired CREDIT_WARNING_THRESHOLDS
  rw [firstThresholdMet_cons, firstThresholdMet_cons, firstThresholdMet_cons,
    firstThresholdMet_nil]
  by_cases h1 : 0 < c.creditBalance ∧ c.status = CustomerStatus.active
  · rw [if_pos h1]
    by_cases h70 : 70 ≤ c.creditBalance / c.creditLimit * 100
    · rw [if_pos h70, if_pos ⟨h1.1, h1.2, h70⟩]
    · rw [if_neg h70]
      rw [if_neg (by intro hcon; exact h70 (by linarith))]
      rw [if_neg (by intro hcon; exact h70 (by linarith))]
      rw [if_neg (by intro hcon; exact h70 hcon.2.2)]
  · rw [if_neg h1, if_neg (by intro hcon; exact h1 ⟨hcon.1, hcon.2.1⟩)]

/-- Witness of claim C8 amended at a concrete customer. -/
theorem credit_warning_at_most_one_lowest_witness :
    0 < custW8.creditLimit ∧
    creditWarningFired custW8 =
      if 0 < custW8.creditBalance ∧ custW8.status = CustomerStatus.active ∧
          70 ≤ custW8.creditBalance / custW8.creditLimit * 100 then some 70 else none :=
  ⟨by norm_num [custW8], credit_warning_at_most_one_lowest custW8 (by norm_num [custW8])⟩

/-- Claim C9: a customer whose status is not active can never make a credit
purchase, whatever the amount, and the sale creation route rejects a credit
sale for such a customer with the credit limit exceeded error and leaves the
ledger untouched, even when the new balance would fit under the limit. -/
theorem inactive_customer_credit_rejected (c : Customer)
    (hc : c.status ≠ CustomerStatus.active) :
    (∀ amount : ℚ, canMakeCreditPurchase c amount = false) ∧
    ∀ (db : DB) (inp : NewSaleInput) (sid t cid : Nat),
      inp.customerId = some cid → inp.items ≠ none →
      inp.paymentType = some PaymentType.credit → inp.totalAmount ≠ 0 →
      findCustomer db cid = some c →
      createSaleRoute db inp sid t = (db, Except.error RouteError.creditLimitExceeded) := by
  have hcan : ∀ amount : ℚ, canMakeCreditPurchase c amount = false := by
    intro amount
    simp [canMakeCreditPurchase, hc]
  refine ⟨hcan, ?_⟩
  intro db inp sid t cid hcid hitems hpt htot hfc
  match hit : inp.items with
  | none => exact absurd hit hitems
  | some items =>
    unfold createSaleRoute
    rw [hcid, hit, hpt]
    simp [htot, hfc, hcan]

/-- A method accepted by the enum is present. -/
theorem methodAllowed_ne_none (m : Option PayMethod) (h : methodAllowed m = true) :
    m ≠ none := by
  intro hn
  subst hn
  simp [methodAllowed] at h

/-- Two states with the same customers collection agree on every customer
lookup. -/
theorem findCustomer_congr (db1 db2 : DB) (h : db1.customers = db2.customers) (cid : Nat) :
    findCustomer db1 cid = findCustomer db2 cid := by
  unfold findCustomer
  rw [h]

/-- Computation rule of the allocation loop on the empty list. -/
theorem allocLoop_nil (cid : Nat) (m : Option PayMethod) (db : DB) (pid : Nat) (r : ℚ) :
    allocLoop cid m db pid r [] = ⟨db, pid, r, [], true⟩ := rfl

/-- Computation rule of the allocation loop on a nonempty list, with the let
bindings of the source spelled out through allocPay and allocStep. -/
theorem allocLoop_cons (cid : Nat) (m : Option PayMethod) (db : DB) (pid : Nat) (r : ℚ)
    (s : Sale) (rest : List Sale) :
    allocLoop cid m db pid r (s :: rest) =
      if r ≤ 0 then ⟨db, pid, r, [], true⟩
      else if paymentSaveOk (allocPay cid m pid r s) then
        if saleSaveOk (allocStep pid r s) then
          ⟨(allocLoop cid m (saveSale (addPayment db (allocPay cid m pid r s))
              (allocStep pid r s)) (pid + 1)
              (r - min r (s.totalAmount - s.paidAmount)) rest).db,
            (allocLoop cid m (saveSale (addPayment db (allocPay cid m pid r s))
              (allocStep pid r s)) (pid + 1)
              (r - min r (s.totalAmount - s.paidAmount)) rest).nextPid,
            (allocLoop cid m (saveSale (addPayment db (allocPay cid m pid r s))
              (allocStep pid r s)) (pid + 1)
              (r - min r (s.totalAmount - s.paidAmount)) rest).remaining,
            (s.id, min r (s.totalAmount - s.paidAmount)) ::
              (allocLoop cid m (saveSale (addPayment db (allocPay cid m pid r s))
                (allocStep pid r s)) (pid + 1)
                (r - min r (s.totalAmount - s.paidAmount)) rest).allocs,
            (allocLoop cid m (saveSale (addPayment db (allocPay cid m pid r s))
              (allocStep pid r s)) (pid + 1)
              (r - min r (s.totalAmount - s.paidAmount)) rest).ok⟩
        else ⟨addPayment db (allocPay cid m pid r s),
          pid, r, [(s.id, min r (s.totalAmount - s.paidAmount))], false⟩
      else ⟨db, pid, r, [], false⟩ := rfl

/-- Computation rule of the spec waterfall on the empty list. -/
theorem specWaterfall_nil (r : ℚ) : specWaterfall r [] = [] := rfl

/-- Computation rule of the spec waterfall on a nonempty list. -/
theorem specWaterfall_cons (r : ℚ) (s : Sale) (rest : List Sale) :
    specWaterfall r (s :: rest) =
      if r = 0 then [] else
        (s.id, min r (s.totalAmount - s.paidAmount)) ::
          specWaterfall (r - min r (s.totalAmount - s.paidAmount)) rest := rfl

/-- Computation rule of one bulk payment iteration once the customer id is in
constructor form. -/
theorem processBulkPayment_some (db : DB) (pid : Nat) (cid : Nat) (amt : ℚ) (hd : Bool)
    (m : Option PayMethod) :
    processBulkPayment db pid ⟨some cid, amt, hd, m⟩ =
      (if amt = 0 ∨ hd = false ∨ m = none then ⟨db, pid, [], false⟩
      else
        match findCustomer db cid with
        | none => ⟨db, pid, [], false⟩
        | some customer =>
          if pendingCreditSalesFor db cid = [] then ⟨db, pid, [], false⟩
          else
            if (allocLoop cid m db pid amt (pendingCreditSalesFor db cid)).ok then
              if customerSaveOk
                  { customer with creditBalance := customer.creditBalance - amt } then
                ⟨saveCustomer (allocLoop cid m db pid amt (pendingCreditSalesFor db cid)).db
                    { customer with creditBalance := customer.creditBalance - amt },
                  (allocLoop cid m db pid amt (pendingCreditSalesFor db cid)).nextPid,
                  (allocLoop cid m db pid amt (pendingCreditSalesFor db cid)).allocs, true⟩
              else ⟨(allocLoop cid m db pid amt (pendingCreditSalesFor db cid)).db,
                (allocLoop cid m db pid amt (pendingCreditSalesFor db cid)).nextPid,
                (allocLoop cid m db pid amt (pendingCreditSalesFor db cid)).allocs, false⟩
            else ⟨(allocLoop cid m db pid amt (pendingCreditSalesFor db cid)).db,
              (allocLoop cid m db pid amt (pendingCreditSalesFor db cid)).nextPid,
              (allocLoop cid m db pid amt (pendingCreditSalesFor db cid)).allocs, false⟩) := rfl

/-- The total outstanding balance of the empty list is zero. -/
theorem outstandingTotal_nil : outstandingTotal [] = 0 := rfl

/-- Computation rule of the total outstanding balance on a nonempty list. -/
theorem outstandingTotal_cons (s : Sale) (rest : List Sale) :
    outstandingTotal (s :: rest) =
      (s.totalAmount - s.paidAmount) + outstandingTotal rest := by
  simp [outstandingTotal]

/-- The total outstanding balance of sales with sound bounds is nonnegative. -/
theorem outstandingTotal_nonneg (l : List Sale)
    (h : ∀ s ∈ l, 0 ≤ s.paidAmount ∧ s.paidAmount ≤ s.totalAmount) :
    0 ≤ outstandingTotal l := by
  apply List.sum_nonneg
  intro x hx
  obtain ⟨s, hs, rfl⟩ := List.mem_map.mp hx
  obtain ⟨h1, h2⟩ := h s hs
  linarith

/-- The allocation loop never touches the customers collection. -/
theorem allocLoop_customers (cid : Nat) (m : Option PayMethod) :
    ∀ (sales : List Sale) (db : DB) (pid : Nat) (r : ℚ),
      (allocLoop cid m db pid r sales).db.customers = db.customers := by
  intro sales
  induction sales with
  | nil => intro db pid r; rfl
  | cons s rest ih =>
    intro db pid r
    rw [allocLoop_cons]
    by_cases hr : r ≤ 0
    · rw [if_pos hr]
    · rw [if_neg hr]
      by_cases hpay : paymentSaveOk (allocPay cid m pid r s) = true
      · rw [if_pos hpay]
        by_cases hsale : saleSaveOk (allocStep pid r s) = true
        · rw [if_pos hsale]
          exact ih _ _ _
        · rw [if_neg hsale]
          rfl
      · rw [if_neg hpay]

/-- Under nonnegative inputs the allocation loop of the bulk route succeeds
and its saved payment records are exactly the waterfall split of the spec. -/
theorem allocLoop_spec (cid : Nat) (m : Option PayMethod) (hm : methodAllowed m = true) :
    ∀ (sales : List Sale) (db : DB) (pid : Nat) (r : ℚ), 0 ≤ r →
      (∀ s ∈ sales, 0 ≤ s.paidAmount ∧ s.paidAmount ≤ s.totalAmount) →
      (allocLoop cid m db pid r sales).ok = true ∧
      (allocLoop cid m db pid r sales).allocs = specWaterfall r sales := by
  intro sales
  induction sales with
  | nil => intro db pid r h0 hb; exact ⟨rfl, rfl⟩
  | cons s rest ih =>
    intro db pid r h0 hb
    obtain ⟨hp1, hp2⟩ := hb s (List.mem_cons_self s rest)
    have hrest : ∀ x ∈ rest, 0 ≤ x.paidAmount ∧ x.paidAmount ≤ x.totalAmount :=
      fun x hx => hb x (List.mem_cons_of_mem s hx)
    by_cases hr : r ≤ 0
    · have hr0 : r = 0 := le_antisymm hr h0
      subst hr0
      rw [allocLoop_cons, if_pos le_rfl, specWaterfall_cons, if_pos rfl]
      exact ⟨rfl, rfl⟩
    · have hrpos : 0 < r := lt_of_not_ge hr
      have hbal : 0 ≤ s.totalAmount - s.paidAmount := by linarith
      have hmin0 : 0 ≤ min r (s.totalAmount - s.paidAmount) := le_min h0 hbal
      have hpayok : paymentSaveOk (allocPay cid m pid r s) = true := by
        simp [allocPay, paymentSaveOk, hm, hmin0]
      have hsaleok : saleSaveOk (allocStep pid r s) = true := by
        simp only [allocStep, saleSaveOk, Bool.and_eq_true, decide_eq_true_eq]
        exact ⟨by linarith, add_nonneg hp1 hmin0⟩
      have hrec := ih (saveSale (addPayment db (allocPay cid m pid r s)) (allocStep pid r s))
        (pid + 1) (r - min r (s.totalAmount - s.paidAmount))
        (by
          have := min_le_left r (s.totalAmount - s.paidAmount)
          linarith)
        hrest
      rw [allocLoop_cons, if_neg hr, if_pos hpayok, if_pos hsaleok,
        specWaterfall_cons, if_neg (ne_of_gt hrpos)]
      refine ⟨hrec.1, ?_⟩
      show (s.id, min r (s.totalAmount - s.paidAmount)) :: _ = _
      rw [hrec.2]

/-- When the payment amount strictly exceeds the total outstanding balance,
the allocation loop settles every sale for exactly its outstanding balance:
it reports success and the saved allocations sum to the total outstanding. -/
theorem allocLoop_excess (cid : Nat) (m : Option PayMethod) (hm : methodAllowed m = true) :
    ∀ (sales : List Sale) (db : DB) (pid : Nat) (r : ℚ),
      (∀ s ∈ sales, 0 ≤ s.paidAmount ∧ s.paidAmount ≤ s.totalAmount) →
      outstandingTotal sales < r →
      (allocLoop cid m db pid r sales).ok = true ∧
      ((allocLoop cid m db pid r sales).allocs.map Prod.snd).sum = outstandingTotal sales := by
  intro sales
  induction sales with
  | nil =>
    intro db pid r hb hx
    exact ⟨rfl, rfl⟩
  | cons s rest ih =>
    intro db pid r hb hx
    obtain ⟨hp1, hp2⟩ := hb s (List.mem_cons_self s rest)
    have hrest : ∀ x ∈ rest, 0 ≤ x.paidAmount ∧ x.paidAmount ≤ x.totalAmount :=
      fun x hx2 => hb x (List.mem_cons_of_mem s hx2)
    have hrest0 : 0 ≤ outstandingTotal rest := outstandingTotal_nonneg rest hrest
    rw [outstandingTotal_cons] at hx
    have hbal : 0 ≤ s.totalAmount - s.paidAmount := by linarith
    have hrpos : 0 < r := by linarith
    have hminbal : min r (s.totalAmount - s.paidAmount) = s.totalAmount - s.paidAmount :=
      min_eq_right (by linarith)
    have hr : ¬ r ≤ 0 := not_le.mpr hrpos
    have hpayok : paymentSaveOk (allocPay cid m pid r s) = true := by
      simp [allocPay, paymentSaveOk, hm, le_min (le_of_lt hrpos) hbal]
    have hsaleok : saleSaveOk (allocStep pid r s) = true := by
      simp only [allocStep, saleSaveOk, Bool.and_eq_true, decide_eq_true_eq]
      exact ⟨by linarith, add_nonneg hp1 (le_min (le_of_lt hrpos) hbal)⟩
    have hrec := ih (saveSale (addPayment db (allocPay cid m pid r s)) (allocStep pid r s))
      (pid + 1) (r - min r (s.totalAmount - s.paidAmount)) hrest
      (by rw [hminbal]; linarith)
    rw [allocLoop_cons, if_neg hr, if_pos hpayok, if_pos hsaleok]
    refine ⟨hrec.1, ?_⟩
    show ((((s.id, min r (s.totalAmount - s.paidAmount)) :: _).map Prod.snd).sum : ℚ) = _
    rw [List.map_cons, List.sum_cons, hrec.2, outstandingTotal_cons, hminbal]

/-- The saved payment records of one bulk iteration are those of its
allocation loop, whether or not the final customer save succeeds. -/
theorem bulkAllocations_run (db : DB) (pid : Nat) (pd : BulkPaymentData) (cid : Nat)
    (customer : Customer)
    (hcid : pd.customerId = some cid)
    (hamt : pd.amount ≠ 0) (hdate : pd.hasDate = true)
    (hmne : pd.method ≠ none)
    (hcust : findCustomer db cid = some customer)
    (hne : pendingCreditSalesFor db cid ≠ []) :
    bulkAllocations db pid pd =
      (allocLoop cid pd.method db pid pd.amount (pendingCreditSalesFor db cid)).allocs := by
  obtain ⟨pcid, pamt, pdate, pmeth⟩ := pd
  simp only at hcid hamt hdate hmne ⊢
  subst hcid
  subst hdate
  unfold bulkAllocations
  rw [processBulkPayment_some]
  rw [if_neg (by simp [hamt, hmne])]
  split
  · rename_i heq
    rw [hcust] at heq
    simp at heq
  · rename_i x heq
    rw [hcust] at heq
    injection heq with h2
    subst h2
    rw [if_neg hne]
    by_cases hok2 : (allocLoop cid pmeth db pid pamt (pendingCreditSalesFor db cid)).ok = true
    · rw [if_pos hok2]
      by_cases hcs : customerSaveOk
          { customer with creditBalance := customer.creditBalance - pamt } = true
      · rw [if_pos hcs]
      · rw [if_neg hcs]
    · rw [if_neg hok2]

/-- Full description of one bulk iteration whose amount strictly exceeds the
total outstanding balance and whose customer save passes validation: the
iteration reports success, the saved allocations sum to the total
outstanding, and the customer balance drops by the full request amount. -/
theorem bulk_excess_run (db : DB) (pid : Nat) (pd : BulkPaymentData)
    (cid : Nat) (customer : Customer)
    (hcid : pd.customerId = some cid) (hdate : pd.hasDate = true)
    (hm : methodAllowed pd.method = true)
    (hcust : findCustomer db cid = some customer)
    (hne : pendingCreditSalesFor db cid ≠ [])
    (hbounds : ∀ s ∈ db.sales, 0 ≤ s.paidAmount ∧ s.paidAmount ≤ s.totalAmount)
    (hexcess : outstandingTotal (pendingCreditSalesFor db cid) < pd.amount)
    (hcsave : customerSaveOk customer = true)
    (hafford : 0 ≤ customer.creditBalance - pd.amount) :
    (processBulkPayment db pid pd).ok = true ∧
    ((processBulkPayment db pid pd).allocs.map Prod.snd).sum =
      outstandingTotal (pendingCreditSalesFor db cid) ∧
    findCustomer (processBulkPayment db pid pd).db cid =
      some { customer with creditBalance := customer.creditBalance - pd.amount } := by
  have hpbounds : ∀ s ∈ pendingCreditSalesFor db cid,
      0 ≤ s.paidAmount ∧ s.paidAmount ≤ s.totalAmount :=
    fun s hs => hbounds s (mem_pendingCreditSalesFor db cid s hs)
  have hout0 : 0 ≤ outstandingTotal (pendingCreditSalesFor db cid) :=
    outstandingTotal_nonneg _ hpbounds
  obtain ⟨pcid, pamt, pdate, pmeth⟩ := pd
  simp only at hcid hdate hm hexcess hafford ⊢
  subst hcid
  subst hdate
  have hamt : 0 < pamt := lt_of_le_of_lt hout0 hexcess
  have hloop := allocLoop_excess cid pmeth hm (pendingCreditSalesFor db cid) db pid pamt
    hpbounds hexcess
  have hcsave2 : customerSaveOk
      { customer with creditBalance := customer.creditBalance - pamt } = true := by
    simp only [customerSaveOk, Bool.and_eq_true, decide_eq_true_eq] at hcsave ⊢
    obtain ⟨⟨⟨h1, h2⟩, h3⟩, h4⟩ := hcsave
    exact ⟨⟨⟨hafford, h2⟩, by linarith⟩, h4⟩
  have hcfind : findCustomer
      (allocLoop cid pmeth db pid pamt (pendingCreditSalesFor db cid)).db cid =
        some customer := by
    rw [findCustomer_congr _ db (allocLoop_customers cid pmeth _ db pid pamt)]
    exact hcust
  rw [processBulkPayment_some]
  rw [if_neg (by simp [ne_of_gt hamt, methodAllowed_ne_none pmeth hm])]
  split
  · rename_i heq
    rw [hcust] at heq
    simp at heq
  · rename_i x heq
    rw [hcust] at heq
    injection heq with heq2
    subst heq2
    rw [if_neg hne]
    rw [if_pos hloop.1, if_pos hcsave2]
    refine ⟨rfl, hloop.2, ?_⟩
    apply findCustomer_saveCustomer
    · rw [hcfind]
      rfl
    · exact findCustomer_id db cid customer hcust

/-- Full description of one bulk iteration whose amount strictly exceeds the
total outstanding balance while the decremented balance would fall below
zero: the customer save fails the schema minimum, the iteration reports
failure and the customer stays unchanged, yet the saved allocations of the
loop still sum to the total outstanding and remain the state the iteration
hands to the shared session, which commits them with the batch. -/
theorem bulk_excess_fail_run (db : DB) (pid : Nat) (pd : BulkPaymentData)
    (cid : Nat) (customer : Customer)
    (hcid : pd.customerId = some cid) (hdate : pd.hasDate = true)
    (hm : methodAllowed pd.method = true)
    (hcust : findCustomer db cid = some customer)
    (hne : pendingCreditSalesFor db cid ≠ [])
    (hbounds : ∀ s ∈ db.sales, 0 ≤ s.paidAmount ∧ s.paidAmount ≤ s.totalAmount)
    (hexcess : outstandingTotal (pendingCreditSalesFor db cid) < pd.amount)
    (hnoafford : customer.creditBalance - pd.amount < 0) :
    (processBulkPayment db pid pd).ok = false ∧
    ((processBulkPayment db pid pd).allocs.map Prod.snd).sum =
      outstandingTotal (pendingCreditSalesFor db cid) ∧
    (processBulkPayment db pid pd).db =
      (allocLoop cid pd.method db pid pd.amount (pendingCreditSalesFor db cid)).db ∧
    findCustomer (processBulkPayment db pid pd).db cid = some customer := by
  have hpbounds : ∀ s ∈ pendingCreditSalesFor db cid,
      0 ≤ s.paidAmount ∧ s.paidAmount ≤ s.totalAmount :=
    fun s hs => hbounds s (mem_pendingCreditSalesFor db cid s hs)
  have hout0 : 0 ≤ outstandingTotal (pendingCreditSalesFor db cid) :=
    outstandingTotal_nonneg _ hpbounds
  obtain ⟨pcid, pamt, pdate, pmeth⟩ := pd
  simp only at hcid hdate hm hexcess hnoafford ⊢
  subst hcid
  subst hdate
  have hamt : 0 < pamt := lt_of_le_of_lt hout0 hexcess
  have hloop := allocLoop_excess cid pmeth hm (pendingCreditSalesFor db cid) db pid pamt
    hpbounds hexcess
  have hcsfail : ¬ customerSaveOk
      { customer with creditBalance := customer.creditBalance - pamt } = true := by
    simp only [customerSaveOk, Bool.and_eq_true, decide_eq_true_eq]
    intro hcon
    exact absurd hcon.1.1.1 (not_le.mpr hnoafford)
  have hcfind : findCustomer
      (allocLoop cid pmeth db pid pamt (pendingCreditSalesFor db cid)).db cid =
        some customer := by
    rw [findCustomer_congr _ db (allocLoop_customers cid pmeth _ db pid pamt)]
    exact hcust
  rw [processBulkPayment_some]
  rw [if_neg (by simp [ne_of_gt hamt, methodAllowed_ne_none pmeth hm])]
  split
  · rename_i heq
    rw [hcust] at heq
    simp at heq
  · rename_i x heq
    rw [hcust] at heq
    injection heq with heq2
    subst heq2
    rw [if_neg hne]
    rw [if_pos hloop.1, if_neg hcsfail]
    exact ⟨rfl, hloop.2, rfl, hcfind⟩

/-- A bulk iteration against an empty pending list saves no allocation. -/
theorem bulkAllocations_empty (db : DB) (pid : Nat) (pd : BulkPaymentData) (cid : Nat)
    (hcid : pd.customerId = some cid)
    (hne : pendingCreditSalesFor db cid = []) : bulkAllocations db pid pd = [] := by
  obtain ⟨pcid, pamt, pdate, pmeth⟩ := pd
  simp only at hcid ⊢
  subst hcid
  unfold bulkAllocations
  rw [processBulkPayment_some]
  by_cases hval : pamt = 0 ∨ pdate = false ∨ pmeth = none
  · rw [if_pos hval]
  · rw [if_neg hval]
    split
    · rfl
    · rw [if_pos hne]

/-- Claim C1: one bulk payment with no explicit target is allocated over the
pending credit obligations of the customer ordered ascending by creation
time: the saved payment records equal the waterfall split of the spec on the
sorted pending list, giving each obligation the minimum of the remaining
amount and its remaining balance and stopping at zero or at the end; the
pending list is sorted by creation time and is a permutation of the pending
credit sales of the ledger; and the split depends only on the payment and the
ordered pending list, so re running the allocation on the same inputs yields
the same per obligation split. -/
theorem bulk_waterfall_allocation (db : DB) (pid : Nat) (pd : BulkPaymentData) (cid : Nat)
    (customer : Customer)
    (hcid : pd.customerId = some cid) (hamt : 0 < pd.amount) (hdate : pd.hasDate = true)
    (hm : methodAllowed pd.method = true)
    (hcust : findCustomer db cid = some customer)
    (hbounds : ∀ s ∈ db.sales, 0 ≤ s.paidAmount ∧ s.paidAmount ≤ s.totalAmount) :
    bulkAllocations db pid pd = specWaterfall pd.amount (pendingCreditSalesFor db cid) ∧
    List.Sorted saleOrder (pendingCreditSalesFor db cid) ∧
    (pendingCreditSalesFor db cid).Perm
      (db.sales.filter (fun s => s.customer == cid && s.status == SaleStatus.pending &&
        s.paymentType == PaymentType.credit)) ∧
    (∀ (db2 : DB) (pid2 : Nat) (customer2 : Customer),
      findCustomer db2 cid = some customer2 →
      (∀ s ∈ db2.sales, 0 ≤ s.paidAmount ∧ s.paidAmount ≤ s.totalAmount) →
      pendingCreditSalesFor db2 cid = pendingCreditSalesFor db cid →
      bulkAllocations db2 pid2 pd = bulkAllocations db pid pd) := by
  have hmain : ∀ (db1 : DB) (pid1 : Nat) (customer1 : Customer),
      findCustomer db1 cid = some customer1 →
      (∀ s ∈ db1.sales, 0 ≤ s.paidAmount ∧ s.paidAmount ≤ s.totalAmount) →
      bulkAllocations db1 pid1 pd =
        specWaterfall pd.amount (pendingCreditSalesFor db1 cid) := by
    intro db1 pid1 customer1 hcust1 hbounds1
    by_cases hne : pendingCreditSalesFor db1 cid = []
    · rw [bulkAllocations_empty db1 pid1 pd cid hcid hne, hne, specWaterfall_nil]
    · rw [bulkAllocations_run db1 pid1 pd cid customer1 hcid (ne_of_gt hamt) hdate
        (methodAllowed_ne_none pd.method hm) hcust1 hne]
      exact (allocLoop_spec cid pd.method hm _ db1 pid1 pd.amount (le_of_lt hamt)
        (fun s hs => hbounds1 s (mem_pendingCreditSalesFor db1 cid s hs))).2
  refine ⟨hmain db pid customer hcust hbounds,
    List.sorted_insertionSort saleOrder _, List.perm_insertionSort saleOrder _, ?_⟩
  intro db2 pid2 customer2 hcust2 hbounds2 hpend
  rw [hmain db2 pid2 customer2 hcust2 hbounds2, hmain db pid customer hcust hbounds, hpend]

/-- Witness of claim C1 at the ledger of scenario C of the spec. -/
theorem bulk_waterfall_allocation_witness :
    0 < pdW1.amount ∧
    (bulkAllocations dbW1 1 pdW1 = specWaterfall pdW1.amount (pendingCreditSalesFor dbW1 1) ∧
      List.Sorted saleOrder (pendingCreditSalesFor dbW1 1) ∧
      (pendingCreditSalesFor dbW1 1).Perm
        (dbW1.sales.filter (fun s => s.customer == 1 && s.status == SaleStatus.pending &&
          s.paymentType == PaymentType.credit)) ∧
      (∀ (db2 : DB) (pid2 : Nat) (customer2 : Customer),
        findCustomer db2 1 = some customer2 →
        (∀ s ∈ db2.sales, 0 ≤ s.paidAmount ∧ s.paidAmount ≤ s.totalAmount) →
        pendingCreditSalesFor db2 1 = pendingCreditSalesFor dbW1 1 →
        bulkAllocations db2 pid2 pdW1 = bulkAllocations dbW1 1 pdW1)) := by
  refine ⟨by norm_num [pdW1], ?_⟩
  exact bulk_waterfall_allocation dbW1 1 pdW1 1 ⟨1, 1000, 600, 0, CustomerStatus.active, []⟩
    rfl (by norm_num [pdW1]) rfl rfl rfl (by norm_num [dbW1])

/-- Claim C2 counterexample: paying 150 against one pending obligation of 100
exceeds the total outstanding, yet the bulk iteration reports success and
mutates the ledger: the customer balance drops from 500 by the full 150 to
350. No ExcessPayment failure occurs and nothing is rolled back. -/
theorem excess_payment_not_rejected_cex :
    outstandingTotal (pendingCreditSalesFor dbC2 1) = 100 ∧ (100 : ℚ) < 150 ∧
    pdC2.amount = 150 ∧
    (processBulkPayment dbC2 1 pdC2).ok = true ∧
    (findCustomer (processBulkPayment dbC2 1 pdC2).db 1).map
      Customer.creditBalance = some 350 := by
  have hps : pendingCreditSalesFor dbC2 1 = [saleC2] := rfl
  have hout : outstandingTotal (pendingCreditSalesFor dbC2 1) = 100 := by
    rw [hps]
    norm_num [outstandingTotal, saleC2]
  have hex : outstandingTotal (pendingCreditSalesFor dbC2 1) < pdC2.amount := by
    rw [hout]
    norm_num [pdC2]
  have h := bulk_excess_run dbC2 1 pdC2 1 custC2 rfl rfl rfl rfl
    (by rw [hps]; simp) (by norm_num [dbC2, saleC2]) hex
    (by norm_num [customerSaveOk, custC2]) (by norm_num [custC2, pdC2])
  refine ⟨hout, by norm_num, rfl, h.1, ?_⟩
  rw [h.2.2]
  norm_num [custC2, pdC2]

/-- Claim C2 amended: a bulk payment whose amount strictly exceeds the total
outstanding balance of the pending credit obligations is never rejected with
an ExcessPayment failure: no such check exists. The allocation loop always
settles every obligation for exactly its outstanding balance and records the
payment rows, the excess staying unallocated. When the balance decremented by
the full request amount stays nonnegative, the customer save passes, the
payment is reported successful and the balance drops by the entire amount,
the excess included. When the decrement would drive the balance below zero,
only the customer save fails: the payment is reported failed and the balance
stays unchanged, yet the obligation updates and payment records of the loop
remain in the shared session and commit with the batch. In neither case does
the transaction abort with nothing applied. -/
theorem excess_payment_applies_outstanding (db : DB) (pid : Nat) (pd : BulkPaymentData)
    (cid : Nat) (customer : Customer)
    (hcid : pd.customerId = some cid) (hdate : pd.hasDate = true)
    (hm : methodAllowed pd.method = true)
    (hcust : findCustomer db cid = some customer)
    (hne : pendingCreditSalesFor db cid ≠ [])
    (hbounds : ∀ s ∈ db.sales, 0 ≤ s.paidAmount ∧ s.paidAmount ≤ s.totalAmount)
    (hexcess : outstandingTotal (pendingCreditSalesFor db cid) < pd.amount)
    (hcsave : customerSaveOk customer = true) :
    ((processBulkPayment db pid pd).allocs.map Prod.snd).sum =
      outstandingTotal (pendingCreditSalesFor db cid) ∧
    (0 ≤ customer.creditBalance - pd.amount →
      (processBulkPayment db pid pd).ok = true ∧
      findCustomer (processBulkPayment db pid pd).db cid =
        some { customer with creditBalance := customer.creditBalance - pd.amount }) ∧
    (customer.creditBalance - pd.amount < 0 →
      (processBulkPayment db pid pd).ok = false ∧
      (processBulkPayment db pid pd).db =
        (allocLoop cid pd.method db pid pd.amount (pendingCreditSalesFor db cid)).db ∧
      findCustomer (processBulkPayment db pid pd).db cid = some customer) := by
  refine ⟨?_, fun haff => ?_, fun hnoaff => ?_⟩
  · by_cases haff : 0 ≤ customer.creditBalance - pd.amount
    · exact (bulk_excess_run db pid pd cid customer hcid hdate hm hcust hne hbounds
        hexcess hcsave haff).2.1
    · exact (bulk_excess_fail_run db pid pd cid customer hcid hdate hm hcust hne hbounds
        hexcess (not_le.mp haff)).2.1
  · have h := bulk_excess_run db pid pd cid customer hcid hdate hm hcust hne hbounds
      hexcess hcsave haff
    exact ⟨h.1, h.2.2⟩
  · have h := bulk_excess_fail_run db pid pd cid customer hcid hdate hm hcust hne hbounds
      hexcess hnoaff
    exact ⟨h.1, h.2.2.1, h.2.2.2⟩

/-- Witness of claim C2 amended at the concrete excess payment ledger: the
balance 500 affords the payment of 150 against outstanding 100, so the first
implication fires and the second holds vacuously. -/
theorem excess_payment_applies_outstanding_witness :
    outstandingTotal (pendingCreditSalesFor dbC2 1) < pdC2.amount ∧
    (((processBulkPayment dbC2 1 pdC2).allocs.map Prod.snd).sum =
        outstandingTotal (pendingCreditSalesFor dbC2 1) ∧
      (0 ≤ custC2.creditBalance - pdC2.amount →
        (processBulkPayment dbC2 1 pdC2).ok = true ∧
        findCustomer (processBulkPayment dbC2 1 pdC2).db 1 =
          some { custC2 with creditBalance := custC2.creditBalance - pdC2.amount }) ∧
      (custC2.creditBalance - pdC2.amount < 0 →
        (processBulkPayment dbC2 1 pdC2).ok = false ∧
        (processBulkPayment dbC2 1 pdC2).db =
          (allocLoop 1 pdC2.method dbC2 1 pdC2.amount (pendingCreditSalesFor dbC2 1)).db ∧
        findCustomer (processBulkPayment dbC2 1 pdC2).db 1 = some custC2)) := by
  have hps : pendingCreditSalesFor dbC2 1 = [saleC2] := rfl
  have hex : outstandingTotal (pendingCreditSalesFor dbC2 1) < pdC2.amount := by
    rw [hps]
    norm_num [outstandingTotal, saleC2, pdC2]
  refine ⟨hex, ?_⟩
  exact excess_payment_applies_outstanding dbC2 1 pdC2 1 custC2 rfl rfl rfl rfl
    (by rw [hps]; simp) (by norm_num [dbC2, saleC2]) hex
    (by norm_num [customerSaveOk, custC2])

/-- Claim C3 counterexample: in the bulk route a payment of 80 for a customer
with balance 50 updates the pending sale and saves a payment record, then the
customer save fails the schema minimum; the failure is caught per payment
inside the shared transaction, which commits anyway: afterwards the sale
carries 80 paid and the customer still has balance 50, so the failed
allocation left the ledger partially mutated instead of unchanged. -/
theorem bulk_partial_commit_cex :
    (bulkRoute dbC3 1 [pdC3]).2.2 = [false] ∧
    (findSale (bulkRoute dbC3 1 [pdC3]).1 1).map Sale.paidAmount = some 80 ∧
    (findCustomer (bulkRoute dbC3 1 [pdC3]).1 1).map Customer.creditBalance = some 50 ∧
    (findSale dbC3 1).map Sale.paidAmount = some 0 := by
  have hpay : paymentSaveOk (allocPay 1 (some PayMethod.cash) 1 80 saleC3) = true := by
    norm_num [allocPay, paymentSaveOk, methodAllowed, saleC3, min_def]
  have hsale : saleSaveOk (allocStep 1 80 saleC3) = true := by
    norm_num [allocStep, saleSaveOk, saleC3, min_def]
  have hloop : allocLoop 1 (some PayMethod.cash) dbC3 1 80 [saleC3] =
      ⟨saveSale (addPayment dbC3 (allocPay 1 (some PayMethod.cash) 1 80 saleC3))
        (allocStep 1 80 saleC3), 2,
        80 - min 80 (saleC3.totalAmount - saleC3.paidAmount),
        [(saleC3.id, min 80 (saleC3.totalAmount - saleC3.paidAmount))], true⟩ := by
    rw [allocLoop_cons, if_neg (by norm_num), if_pos hpay, if_pos hsale, allocLoop_nil]
  have hbulk : processBulkPayment dbC3 1 pdC3 =
      ⟨saveSale (addPayment dbC3 (allocPay 1 (some PayMethod.cash) 1 80 saleC3))
        (allocStep 1 80 saleC3), 2,
        [(saleC3.id, min 80 (saleC3.totalAmount - saleC3.paidAmount))], false⟩ := by
    show processBulkPayment dbC3 1 ⟨some 1, 80, true, some PayMethod.cash⟩ = _
    rw [processBulkPayment_some]
    rw [if_neg (by push_neg; exact ⟨by norm_num, by simp, by simp⟩)]
    simp only [show findCustomer dbC3 1 = some custC3 from rfl]
    rw [if_neg (by rw [show pendingCreditSalesFor dbC3 1 = [saleC3] from rfl]; simp)]
    rw [show pendingCreditSalesFor dbC3 1 = [saleC3] from rfl]
    rw [hloop]
    rw [if_pos rfl]
    rw [if_neg (by norm_num [customerSaveOk, custC3])]
  have hroute : bulkRoute dbC3 1 [pdC3] =
      ((processBulkPayment dbC3 1 pdC3).db, (processBulkPayment dbC3 1 pdC3).nextPid,
        [(processBulkPayment dbC3 1 pdC3).ok]) := rfl
  refine ⟨?_, ?_, ?_, rfl⟩
  · rw [hroute, hbulk]
  · rw [hroute, hbulk]
    have hfs : findSale (saveSale (addPayment dbC3
        (allocPay 1 (some PayMethod.cash) 1 80 saleC3)) (allocStep 1 80 saleC3)) 1 =
        some (allocStep 1 80 saleC3) := by
      apply findSale_saveSale
      · rfl
      · rfl
    rw [hfs]
    norm_num [allocStep, saleC3, min_def]
  · rw [hroute, hbulk]
    rfl

/-- Claim C3 amended: the per customer payment route is atomic: every write
happens inside one transaction that aborts on any failure, so a failing
request leaves the ledger unchanged. The bulk route lacks this guarantee: a
per payment failure inside the shared transaction is caught and the batch is
committed with the writes made before the failure, as the counterexample
shows. -/
theorem customer_payment_route_atomic (db : DB) (cid : Nat) (amount : ℚ) (mok : Bool)
    (sid : Option Nat) :
    (customerPaymentRoute db cid amount mok sid).2 = false →
    (customerPaymentRoute db cid amount mok sid).1 = db := by
  have saveBranch : ∀ (c1 : Customer),
      ((if customerSaveOk c1 then (saveCustomer db c1, true)
          else ((db, false) : DB × Bool)).2 = false →
        (if customerSaveOk c1 then (saveCustomer db c1, true)
          else ((db, false) : DB × Bool)).1 = db) := by
    intro c1
    by_cases h : customerSaveOk c1 = true
    · simp [h]
    · simp [h]
  have saleBranch : ∀ (c1 : Customer) (s1 : Sale) (cond : Prop) (hdec : Decidable cond),
      ((if cond then
          if saleSaveOk s1 then
            if customerSaveOk c1 then (saveCustomer (saveSale db s1) c1, true)
            else ((db, false) : DB × Bool)
          else (db, false)
        else
          if customerSaveOk c1 then (saveCustomer db c1, true) else (db, false)).2 = false →
        (if cond then
          if saleSaveOk s1 then
            if customerSaveOk c1 then (saveCustomer (saveSale db s1) c1, true)
            else ((db, false) : DB × Bool)
          else (db, false)
        else
          if customerSaveOk c1 then (saveCustomer db c1, true) else (db, false)).1 = db) := by
    intro c1 s1 cond hdec
    by_cases hc : cond
    · rw [if_pos hc]
      by_cases hs : saleSaveOk s1 = true
      · rw [if_pos hs]
        by_cases hk : customerSaveOk c1 = true
        · simp [hk]
        · simp [hk]
      · simp [hs]
    · rw [if_neg hc]
      exact saveBranch c1
  unfold customerPaymentRoute
  repeat' split
  all_goals first
    | (intro _; rfl)
    | exact saveBranch _
    | exact saleBranch _ _ _ _

/-- Witness of claim C3 amended at a concrete failing request: paying 50
against a balance of 10 fails and the ledger is unchanged. -/
theorem customer_payment_route_atomic_witness :
    (customerPaymentRoute dbW3 1 50 true none).2 = false ∧
    (customerPaymentRoute dbW3 1 50 true none).1 = dbW3 := by
  have h2 : (customerPaymentRoute dbW3 1 50 true none).2 = false := by
    simp only [customerPaymentRoute,
      show findCustomer dbW3 1 = some ⟨1, 1000, 10, 0, CustomerStatus.active, []⟩ from rfl]
    norm_num
  exact ⟨h2, customer_payment_route_atomic dbW3 1 50 true none h2⟩

/-- Full description of the manual status override on a pending credit sale:
the customer balance is decremented by the full totalAmount through the
unvalidated update query, the sale is marked completed, and both writes
commit together. -/
theorem statusOverride_run (db : DB) (sid : Nat) (sale : Sale) (c : Customer)
    (hs : findSale db sid = some sale) (hns : sale.status ≠ SaleStatus.completed)
    (hcred : sale.paymentType = PaymentType.credit)
    (hc : findCustomer db sale.customer = some c)
    (hok : saleSaveOk { sale with status := SaleStatus.completed } = true) :
    updateSaleStatusRoute db sid SaleStatus.completed =
      (saveSale (saveCustomer db
          { c with creditBalance := c.creditBalance - sale.totalAmount })
        { sale with status := SaleStatus.completed }, true) := by
  unfold updateSaleStatusRoute
  simp only [hs]
  rw [if_neg hns]
  rw [if_pos ⟨by trivial, hcred⟩]
  simp only [hc]
  rw [if_pos hok]

/-- A failing request leaves an if branch of a route unchanged: generic shape
of an aborted transaction leaf. -/
theorem ifPair_atomic (db : DB) (cond : Prop) (hdec : Decidable cond) (X : DB) :
    ((if cond then (X, true) else ((db, false) : DB × Bool)).2 = false →
      (if cond then (X, true) else ((db, false) : DB × Bool)).1 = db) := by
  by_cases hc : cond
  · simp [hc]
  · simp [hc]

/-- A failing manual status override aborts its transaction and leaves the
ledger unchanged. -/
theorem statusOverride_atomic (db : DB) (sid : Nat) (st : SaleStatus) :
    (updateSaleStatusRoute db sid st).2 = false → (updateSaleStatusRoute db sid st).1 = db := by
  unfold updateSaleStatusRoute
  repeat' split
  all_goals first
    | (intro _; rfl)
    | exact ifPair_atomic _ _ _ _

/-- Claim C4 counterexample: completing a partially paid credit sale of 100
through the status override decrements the balance 40 by the full 100 with no
validation run by the update query, committing a balance of minus 60: the
invariant 0 ≤ creditBalance is violated and the write is not rejected. -/
theorem status_override_negative_balance_cex :
    (updateSaleStatusRoute dbC4 1 SaleStatus.completed).2 = true ∧
    (findCustomer (updateSaleStatusRoute dbC4 1 SaleStatus.completed).1 1).map
      Customer.creditBalance = some (-60) ∧ ¬ (0 ≤ (-60 : ℚ)) := by
  have hrun := statusOverride_run dbC4 1 saleC4 custC4 rfl (by simp [saleC4]) rfl rfl
    (by norm_num [saleSaveOk, saleC4])
  have hfc : findCustomer (updateSaleStatusRoute dbC4 1 SaleStatus.completed).1 1 =
      some { custC4 with creditBalance := custC4.creditBalance - saleC4.totalAmount } := by
    rw [hrun]
    exact findCustomer_saveCustomer dbC4 1 _ rfl rfl
  refine ⟨by rw [hrun], ?_, by norm_num⟩
  rw [hfc]
  norm_num [custC4, saleC4]

/-- Saving a customer within the invariant preserves the ledger wide credit
invariant. -/
theorem creditInvariant_saveCustomer (db : DB) (c : Customer)
    (hdb : creditInvariant db) (hc : 0 ≤ c.creditBalance ∧ c.creditBalance ≤ c.creditLimit) :
    creditInvariant (saveCustomer db c) := by
  intro x hx
  simp only [saveCustomer] at hx
  obtain ⟨y, hy, rfl⟩ := List.mem_map.mp hx
  by_cases h : y.id = c.id
  · rw [if_pos h]
    exact hc
  · rw [if_neg h]
    exact hdb y hy

/-- The save validation of the Customer schema implies the credit invariant
for the saved document. -/
theorem customerSaveOk_invariant (c : Customer) (h : customerSaveOk c = true) :
    0 ≤ c.creditBalance ∧ c.creditBalance ≤ c.creditLimit := by
  simp only [customerSaveOk, Bool.and_eq_true, decide_eq_true_eq] at h
  exact ⟨h.1.1.1, h.1.2⟩

/-- A validated save branch preserves the ledger wide credit invariant. -/
theorem creditInvariant_saveBranch (db : DB) (c1 : Customer)
    (hdb : creditInvariant db) :
    creditInvariant ((if customerSaveOk c1 then (saveCustomer db c1, true)
      else ((db, false) : DB × Bool)).1) := by
  by_cases h : customerSaveOk c1 = true
  · simp only [if_pos h]
    exact creditInvariant_saveCustomer db c1 hdb (customerSaveOk_invariant c1 h)
  · simp only [if_neg h]
    exact hdb

/-- The sale completing branch of the customer payment route preserves the
ledger wide credit invariant. -/
theorem creditInvariant_saleBranch (db : DB) (c1 : Customer) (s1 : Sale) (cond : Prop)
    (hdec : Decidable cond) (hdb : creditInvariant db) :
    creditInvariant ((if cond then
        if saleSaveOk s1 then
          if customerSaveOk c1 then (saveCustomer (saveSale db s1) c1, true)
          else ((db, false) : DB × Bool)
        else (db, false)
      else
        if customerSaveOk c1 then (saveCustomer db c1, true) else (db, false)).1) := by
  by_cases hcnd : cond
  · rw [if_pos hcnd]
    by_cases hs : saleSaveOk s1 = true
    · rw [if_pos hs]
      by_cases h : customerSaveOk c1 = true
      · simp only [if_pos h]
        have hdb2 : creditInvariant (saveSale db s1) := fun x hx => hdb x hx
        exact creditInvariant_saveCustomer (saveSale db s1) c1 hdb2
          (customerSaveOk_invariant c1 h)
      · simp only [if_neg h]
        exact hdb
    · rw [if_neg hs]
      exact hdb
  · rw [if_neg hcnd]
    exact creditInvariant_saveBranch db c1 hdb

/-- Claim C4 amended: the document save paths enforce the credit account
invariant: the customer save validation accepts exactly balances between zero
and the limit, and both the payment route and the limit change route preserve
0 ≤ creditBalance ≤ creditLimit for every customer of the ledger; the manual
status override however updates the balance with an unvalidated increment and
can commit a negative balance, as the counterexample shows. -/
theorem save_paths_preserve_credit_invariant :
    (∀ c : Customer, customerSaveOk c = true →
      0 ≤ c.creditBalance ∧ c.creditBalance ≤ c.creditLimit) ∧
    (∀ (db : DB) (cid : Nat) (amount : ℚ) (mok : Bool) (sid : Option Nat),
      creditInvariant db → creditInvariant (customerPaymentRoute db cid amount mok sid).1) ∧
    (∀ (db : DB) (cid : Nat) (newLimit : ℚ) (ca : Bool),
      creditInvariant db → creditInvariant (updateCustomerRoute db cid newLimit ca).1) := by
  refine ⟨customerSaveOk_invariant, ?_, ?_⟩
  · intro db cid amount mok sid hdb
    unfold customerPaymentRoute
    repeat' split
    all_goals first
      | exact hdb
      | exact creditInvariant_saveBranch _ _ hdb
      | exact creditInvariant_saleBranch _ _ _ _ _ hdb
  · intro db cid newLimit ca hdb
    unfold updateCustomerRoute
    repeat' split
    all_goals first
      | exact hdb
      | exact creditInvariant_saveBranch _ _ hdb

/-- Witness of claim C4 amended at a concrete ledger and requests. -/
theorem save_paths_preserve_credit_invariant_witness :
    creditInvariant dbW4 ∧
    creditInvariant (customerPaymentRoute dbW4 1 5 true none).1 ∧
    creditInvariant (updateCustomerRoute dbW4 1 200 true).1 := by
  have h1 : creditInvariant dbW4 := by
    intro c hc
    simp only [dbW4] at hc
    rw [List.mem_singleton] at hc
    subst hc
    norm_num
  exact ⟨h1, save_paths_preserve_credit_invariant.2.1 dbW4 1 5 true none h1,
    save_paths_preserve_credit_invariant.2.2 dbW4 1 200 true h1⟩

/-- Claim C5 counterexample: the status override marks the fully unpaid
pending credit sale of 100 completed: afterwards the sale has status
completed while paidToDate 0 is strictly below the principal 100, so the
equivalence between completed and paidToDate at least principal fails. -/
theorem status_override_breaks_paid_iff_cex :
    (findSale (updateSaleStatusRoute dbC5 1 SaleStatus.completed).1 1).map
      (fun s => (s.status, s.paidAmount, s.totalAmount)) =
      some (SaleStatus.completed, 0, 100) ∧ ¬ ((100 : ℚ) ≤ 0) := by
  have hrun := statusOverride_run dbC5 1 saleC5 custC5 rfl (by simp [saleC5]) rfl rfl
    (by norm_num [saleSaveOk, saleC5])
  refine ⟨?_, by norm_num⟩
  rw [hrun]
  have hfs : findSale (saveSale (saveCustomer dbC5
      { custC5 with creditBalance := custC5.creditBalance - saleC5.totalAmount })
      { saleC5 with status := SaleStatus.completed }) 1 =
      some { saleC5 with status := SaleStatus.completed } := by
    apply findSale_saveSale
    · rfl
    · rfl
  rw [hfs]
  simp [saleC5]

/-- Claim C5 amended: the allocator operation processPayment preserves the
obligation invariant: any successful application leaves
paidToDate ≤ principal, and afterwards status = completed holds exactly when
paidToDate ≥ principal; the manual status override does not respect the
equivalence, as the counterexample shows, so it holds only for allocator
driven transitions. -/
theorem processPayment_preserves_invariant (s s1 : Sale) (amount : ℚ)
    (h : s.processPayment amount = some s1) :
    s1.paidAmount ≤ s1.totalAmount ∧
      (s1.status = SaleStatus.completed ↔ s1.totalAmount ≤ s1.paidAmount) := by
  simp only [Sale.processPayment] at h
  split at h
  · exact absurd h (by simp)
  · split at h
    · exact absurd h (by simp)
    · split at h
      · exact absurd h (by simp)
      · rename_i hcomp hneg hrb
        have hrb2 : amount ≤ s.remainingBalance := not_lt.mp hrb
        have hamt : 0 < amount := lt_of_not_ge hneg
        have hcred : s.paymentType = PaymentType.credit := by
          by_contra hnc
          rw [Sale.remainingBalance, if_neg hnc] at hrb2
          exact hneg (by linarith)
        rw [Sale.remainingBalance, if_pos hcred] at hrb2
        split at h
        · rename_i hfull
          split at h
          · injection h with h1
            subst h1
            refine ⟨?_, ?_⟩
            · show s.paidAmount + amount ≤ s.totalAmount
              linarith
            · show SaleStatus.completed = SaleStatus.completed ↔
                s.totalAmount ≤ s.paidAmount + amount
              simp [hfull]
          · exact absurd h (by simp)
        · rename_i hfull
          split at h
          · injection h with h1
            subst h1
            refine ⟨?_, ?_⟩
            · show s.paidAmount + amount ≤ s.totalAmount
              linarith
            · show s.status = SaleStatus.completed ↔
                s.totalAmount ≤ s.paidAmount + amount
              simp [hfull, hcomp]
          · exact absurd h (by simp)

/-- Witness of claim C5 amended at a concrete partial payment. -/
theorem processPayment_preserves_invariant_witness :
    saleW5.processPayment 40 = some saleW5r ∧
    (saleW5r.paidAmount ≤ saleW5r.totalAmount ∧
      (saleW5r.status = SaleStatus.completed ↔ saleW5r.totalAmount ≤ saleW5r.paidAmount)) := by
  have hp : saleW5.processPayment 40 = some saleW5r := by
    norm_num [Sale.processPayment, Sale.remainingBalance, saleW5, saleW5r, saleSaveOk]
    exact fun h => absurd h (by decide)
  exact ⟨hp, processPayment_preserves_invariant saleW5 saleW5r 40 hp⟩

/-- Claim C6 counterexample: the sale of 100 has 40 already paid, so its
outstanding amount is 60, yet completing it through the status override drops
the customer balance from 500 to 400: the decrement is the full totalAmount
100, not the outstanding 60, which would have left 440. -/
theorem status_override_decrements_total_cex :
    (updateSaleStatusRoute dbC6 1 SaleStatus.completed).2 = true ∧
    (findCustomer (updateSaleStatusRoute dbC6 1 SaleStatus.completed).1 1).map
      Customer.creditBalance = some 400 ∧
    saleC6.totalAmount - saleC6.paidAmount = 60 ∧
    (400 : ℚ) ≠ 500 - 60 := by
  have hs6 : findSale dbC6 1 = some saleC6 := rfl
  have hns6 : saleC6.status ≠ SaleStatus.completed := by decide
  have hcred6 : saleC6.paymentType = PaymentType.credit := rfl
  have hc6 : findCustomer dbC6 saleC6.customer = some custC6 := rfl
  have hok6 : saleSaveOk { saleC6 with status := SaleStatus.completed } = true := by
    norm_num [saleSaveOk, saleC6]
  have hrun := statusOverride_run dbC6 1 saleC6 custC6 hs6 hns6 hcred6 hc6 hok6
  have hfc : findCustomer (updateSaleStatusRoute dbC6 1 SaleStatus.completed).1 1 =
      some { custC6 with creditBalance := custC6.creditBalance - saleC6.totalAmount } := by
    rw [hrun]
    exact findCustomer_saveCustomer dbC6 1 _ rfl rfl
  refine ⟨by rw [hrun], ?_, by norm_num [saleC6], by norm_num⟩
  rw [hfc]
  norm_num [custC6, saleC6]

/-- Claim C6 amended: when the manual status override marks a pending credit
sale completed, the owning customer balance is decremented by the full
totalAmount of the sale, not by its outstanding amount, and the decrement and
the status flip commit in the same transaction: on success both are visible
together, and any failing override leaves the ledger unchanged. -/
theorem status_override_decrements_totalAmount (db : DB) (sid : Nat) (sale : Sale)
    (c : Customer)
    (hs : findSale db sid = some sale) (hpend : sale.status = SaleStatus.pending)
    (hcred : sale.paymentType = PaymentType.credit)
    (hc : findCustomer db sale.customer = some c)
    (hok : saleSaveOk { sale with status := SaleStatus.completed } = true) :
    (updateSaleStatusRoute db sid SaleStatus.completed).2 = true ∧
    findCustomer (updateSaleStatusRoute db sid SaleStatus.completed).1 sale.customer =
      some { c with creditBalance := c.creditBalance - sale.totalAmount } ∧
    findSale (updateSaleStatusRoute db sid SaleStatus.completed).1 sid =
      some { sale with status := SaleStatus.completed } ∧
    (∀ st : SaleStatus, (updateSaleStatusRoute db sid st).2 = false →
      (updateSaleStatusRoute db sid st).1 = db) := by
  have hns : sale.status ≠ SaleStatus.completed := by
    rw [hpend]
    simp
  have hrun := statusOverride_run db sid sale c hs hns hcred hc hok
  rw [hrun]
  refine ⟨rfl, ?_, ?_, fun st => statusOverride_atomic db sid st⟩
  · exact findCustomer_saveCustomer db sale.customer _ (by rw [hc]; rfl)
      (findCustomer_id db sale.customer c hc)
  · apply findSale_saveSale
    · rw [show findSale (saveCustomer db
        { c with creditBalance := c.creditBalance - sale.totalAmount }) sid =
          findSale db sid from rfl, hs]
      rfl
    · exact findSale_id db sid sale hs

/-- Witness of claim C6 amended at the partially paid sale ledger. -/
theorem status_override_decrements_totalAmount_witness :
    findSale dbC6 1 = some saleC6 ∧
    ((updateSaleStatusRoute dbC6 1 SaleStatus.completed).2 = true ∧
      findCustomer (updateSaleStatusRoute dbC6 1 SaleStatus.completed).1 saleC6.customer =
        some { custC6 with creditBalance := custC6.creditBalance - saleC6.totalAmount } ∧
      findSale (updateSaleStatusRoute dbC6 1 SaleStatus.completed).1 1 =
        some { saleC6 with status := SaleStatus.completed } ∧
      (∀ st : SaleStatus, (updateSaleStatusRoute dbC6 1 st).2 = false →
        (updateSaleStatusRoute dbC6 1 st).1 = dbC6)) :=
  ⟨rfl, status_override_decrements_totalAmount dbC6 1 saleC6 custC6 rfl rfl rfl rfl
    (by norm_num [saleSaveOk, saleC6])⟩

/-- The sale update block of the razorpay route succeeds under sound schema
bounds and leaves the customers collection untouched. -/
theorem razorpaySaleStep_ok (db1 : DB) (osid : Option Nat) (amt : ℚ) (pid : Nat)
    (hbounds : ∀ s ∈ db1.sales, 0 ≤ s.paidAmount ∧ 0 ≤ s.totalAmount) (hamt : 0 ≤ amt) :
    (razorpaySaleStep db1 osid amt pid).2 = true ∧
    (razorpaySaleStep db1 osid amt pid).1.customers = db1.customers := by
  unfold razorpaySaleStep
  split
  · exact ⟨rfl, rfl⟩
  · split
    · exact ⟨rfl, rfl⟩
    · rename_i sid sale heq
      have hmem : sale ∈ db1.sales := by
        have := List.mem_of_find?_eq_some heq
        exact this
      obtain ⟨hb1, hb2⟩ := hbounds sale hmem
      rw [if_pos (by
        simp only [saleSaveOk, Bool.and_eq_true, decide_eq_true_eq]
        exact ⟨hb2, by linarith⟩)]
      exact ⟨rfl, rfl⟩

/-- The customer update block of the razorpay route clamps the balance at
zero, the save always passing validation when the stored customer already
did, and then the out of scope sale reference of the confirmation call makes
the block answer failure while the saved balance persists. -/
theorem razorpayCustomerStep_clamped (db2 : DB) (cid : Nat) (amt : ℚ) (c : Customer)
    (hc : findCustomer db2 cid = some c) (hcok : customerSaveOk c = true)
    (hamt : 0 ≤ amt) :
    (razorpayCustomerStep db2 (some cid) amt).2 = false ∧
    findCustomer (razorpayCustomerStep db2 (some cid) amt).1 cid =
      some { c with creditBalance := max 0 (c.creditBalance - amt) } := by
  unfold razorpayCustomerStep
  split
  · rename_i heq
    exact absurd heq (by simp)
  · rename_i x heq
    injection heq with h0
    subst h0
    split
    · rename_i heq2
      rw [hc] at heq2
      simp at heq2
    · rename_i y heq2
      rw [hc] at heq2
      injection heq2 with h2
      subst h2
      have hok1 : customerSaveOk
          { c with creditBalance := max 0 (c.creditBalance - amt) } = true := by
        simp only [customerSaveOk, Bool.and_eq_true, decide_eq_true_eq] at hcok ⊢
        obtain ⟨⟨⟨h1, h2⟩, h3⟩, h4⟩ := hcok
        exact ⟨⟨⟨le_max_left 0 _, h2⟩, max_le (by linarith) (by linarith)⟩, h4⟩
      rw [if_pos hok1]
      exact ⟨rfl, findCustomer_saveCustomer db2 cid _ (by rw [hc]; rfl)
        (findCustomer_id db2 cid c hc)⟩

/-- Claim C10 counterexample: a verified payment carrying a customer id but no
sale id fails the Payment schema validation before any write, because sale is
a required field: the route reports failure and the customer balance stays at
100 instead of being updated to max 0 (100 - 30) = 70 as the claim asserts
for every verified payment with a customer id. -/
theorem razorpay_missing_sale_cex :
    razorpayVerifyRoute dbC10 inpC10 1 = (dbC10, false) ∧
    (findCustomer dbC10 1).map Customer.creditBalance = some 100 ∧
    ((100 : ℚ) ≠ max 0 (100 - 30)) := by
  refine ⟨rfl, rfl, by norm_num⟩

/-- Claim C10 amended: for a verified razorpay payment that carries a
customer id and also a sale id, with a nonnegative amount and a resolving
customer, the customer balance is persistently updated to
max 0 (creditBalance - amount): an amount exceeding the balance is silently
clamped to zero and no overpayment error exists on this path; yet the route
never answers success here, because the confirmation call after the save
references the sale variable that is block scoped to the sale update block,
so every such run raises and answers 500 with the balance update already
persisted, there being no transaction. A payment without a sale id fails the
Payment schema validation before any write and the balance stays untouched,
as the counterexample shows. -/
theorem razorpay_clamped_balance_update (db : DB) (inp : RazorpayVerifyInput) (pid : Nat)
    (cid sid : Nat) (c : Customer)
    (hsig : inp.signatureValid = true) (hsid : inp.saleId = some sid)
    (hcid : inp.customerId = some cid) (hamt : 0 ≤ inp.amount)
    (hc : findCustomer db cid = some c) (hcok : customerSaveOk c = true)
    (hbounds : ∀ s ∈ db.sales, 0 ≤ s.paidAmount ∧ 0 ≤ s.totalAmount) :
    (razorpayVerifyRoute db inp pid).2 = false ∧
    findCustomer (razorpayVerifyRoute db inp pid).1 cid =
      some { c with creditBalance := max 0 (c.creditBalance - inp.amount) } := by
  obtain ⟨sv, osid, ocid, amt⟩ := inp
  simp only at hsig hsid hcid hamt ⊢
  subst hsig
  subst hsid
  subst hcid
  have hpay : paymentSaveOk ⟨pid, some sid, some cid, amt, some PayMethod.razorpay⟩ = true := by
    simp [paymentSaveOk, methodAllowed, hamt]
  have hstep := razorpaySaleStep_ok
    (addPayment db ⟨pid, some sid, some cid, amt, some PayMethod.razorpay⟩) (some sid) amt pid
    (fun s hs => hbounds s hs) hamt
  have hfc2 : findCustomer (razorpaySaleStep
      (addPayment db ⟨pid, some sid, some cid, amt, some PayMethod.razorpay⟩)
      (some sid) amt pid).1 cid = some c := by
    rw [findCustomer_congr _
      (addPayment db ⟨pid, some sid, some cid, amt, some PayMethod.razorpay⟩) hstep.2]
    exact hc
  unfold razorpayVerifyRoute
  rw [if_neg (by simp)]
  rw [if_pos hpay]
  rw [if_neg (by simp [hstep.1])]
  exact razorpayCustomerStep_clamped _ cid amt c hfc2 hcok hamt

/-- Witness of claim C10 amended: a verified payment of 250 against a balance
of 100 is clamped, leaving balance max 0 (100 - 250) = 0 persisted with no
overpayment error, the route answering 500 through the out of scope sale
reference of the confirmation call. -/
theorem razorpay_clamped_balance_update_witness :
    0 ≤ inpW10.amount ∧
    ((razorpayVerifyRoute dbC10 inpW10 1).2 = false ∧
      findCustomer (razorpayVerifyRoute dbC10 inpW10 1).1 1 =
        some { custC10 with creditBalance := max 0 (custC10.creditBalance - inpW10.amount) }) := by
  refine ⟨by norm_num [inpW10], ?_⟩
  exact razorpay_clamped_balance_update dbC10 inpW10 1 1 9 custC10 rfl rfl rfl
    (by norm_num [inpW10]) rfl (by norm_num [customerSaveOk, custC10])
    (by simp [dbC10])

/-- Witness of claim C9 at a concrete inactive customer and request. -/
theorem inactive_customer_credit_rejected_witness :
    canMakeCreditPurchase custW9 100 = false ∧
    createSaleRoute dbW9 inpW9 5 3 = (dbW9, Except.error RouteError.creditLimitExceeded) := by
  have h := inactive_customer_credit_rejected custW9 (by decide)
  exact ⟨h.1 100,
    h.2 dbW9 inpW9 5 3 1 rfl (by decide) rfl (by norm_num [inpW9]) rfl⟩

end AgroFlow
